import Mathlib

/-!
# Verification of the summerise-genai collection engine

A shallow embedding, in Lean 4, of the multi-source log/session collection
core of the repository (package `internal/collector` together with the data
model of `pkg/models` and the path helper of `internal/config`), followed by
theorems settling the frozen claims about it.

Modelling conventions, used uniformly below:

* Go `time.Time` is modelled as `Int`: the number of nanoseconds since Go's
  zero time (January 1, year 1, UTC).  The Go zero value is `0`, so
  `t.IsZero()` becomes `t = 0`; `a.Before b` is `a < b`, `a.After b` is
  `a > b`.  `time.Now()` is passed in explicitly as a parameter `now`.
* A Go `context.Context` whose state does not change during a call is
  modelled by `ctxErr : Option GoError`: `none` means the context is alive
  (`ctx.Done()` never fires, `ctx.Err() = nil`), `some e` means the context
  was already cancelled with error `e` when the call began (every
  `select { case <-ctx.Done() ... }` check observes it).  `context.WithTimeout`
  derives a child whose state we model as equal to the parent's.
* Goroutine pairs joined by a `WaitGroup` are determinised: the merged output
  lists the history branch's records first, then the session-directory
  branch's, then (for Amazon Q) the AWS-config branch's; the source makes no
  ordering promise, and no claim below depends on the order.
* The filesystem seen through the `FileReader` interfaces (`Stat`, `ReadFile`,
  `WalkDir`, `os.Open`) is a value of type `FileSystem`; `stat p = none`
  models `os.IsNotExist`.  `walkFiles root` lists the non-directory files a
  `WalkDir` visits under `root`, in visit order, with no walk errors.
* Fallible Go functions returning `(T, error)` become `Except GoError T`.
  Error message texts are kept close to the source but are never
  load-bearing: no claim distinguishes two non-context error values by text.
-/

/-- Go `error` values as the collectors distinguish them: the two context
errors (`context.Canceled`, `context.DeadlineExceeded`), a runtime panic
(nil-pointer dereference, which in Go is not an `error` return at all but
aborts the call), and every other error, carrying its message. -/
inductive GoError where
  | canceled
  | deadlineExceeded
  | nilPanic
  | other (msg : String)
deriving DecidableEq, Repr

/-- `t.IsZero()` for the `Int` model of `time.Time`. -/
def timeIsZero (t : Int) : Bool := t == 0

/-- `a.Before(b)` for the `Int` model of `time.Time`. -/
def timeBefore (a b : Int) : Bool := decide (a < b)

/-- `a.After(b)` for the `Int` model of `time.Time`. -/
def timeAfter (a b : Int) : Bool := decide (b < a)

/-! ### Go string primitives

The embedding uses character-list implementations of the Go `strings` and
`String` operations it needs (the built-in byte-position-based `String`
functions do not evaluate inside the kernel).  `goIsSpace` covers the ASCII
whitespace `strings.TrimSpace` strips; non-ASCII whitespace is outside the
model. -/

/-- Whether `pat` starts the character list `l` (`strings.HasPrefix`). -/
def listStartsWith : List Char → List Char → Bool
  | _, [] => true
  | [], _ :: _ => false
  | a :: as, b :: bs => (a == b) && listStartsWith as bs

/-- `strings.Contains` on character lists. -/
def listContainsSub (hay pat : List Char) : Bool :=
  match hay with
  | [] => listStartsWith [] pat
  | _ :: rest => listStartsWith hay pat || listContainsSub rest pat

/-- `strings.HasPrefix`. -/
def strStartsWith (s pre : String) : Bool :=
  listStartsWith s.toList pre.toList

/-- `strings.HasSuffix`. -/
def strEndsWith (s suffix : String) : Bool :=
  listStartsWith s.toList.reverse suffix.toList.reverse

/-- `strings.Contains`. -/
def stringContainsSub (s pat : String) : Bool :=
  listContainsSub s.toList pat.toList

/-- ASCII whitespace. -/
def goIsSpace (c : Char) : Bool :=
  c == ' ' || c == '\t' || c == '\n' || c == '\r' ||
    c == Char.ofNat 11 || c == Char.ofNat 12

/-- `strings.TrimSpace`. -/
def strTrim (s : String) : String :=
  String.mk (((s.toList.dropWhile goIsSpace).reverse.dropWhile goIsSpace).reverse)

/-- The first `n` characters (`s[:n]` on ASCII). -/
def strTake (s : String) (n : Nat) : String := String.mk (s.toList.take n)

/-- All but the first `n` characters (`s[n:]` on ASCII). -/
def strDrop (s : String) (n : Nat) : String := String.mk (s.toList.drop n)

/-- All but the last `n` characters. -/
def strDropRight (s : String) (n : Nat) : String :=
  String.mk (s.toList.take (s.toList.length - n))

/-- `strings.ToLower` on ASCII. -/
def strToLower (s : String) : String :=
  String.mk (s.toList.map (fun c =>
    if 'A' ≤ c ∧ c ≤ 'Z' then Char.ofNat (c.toNat + 32) else c))

/-- `strings.Join`. -/
def strIntercalate (sep : String) : List String → String
  | [] => ""
  | [x] => x
  | x :: xs => x ++ sep ++ strIntercalate sep xs

/-- The splitting loop of `strings.Split` for a one-character separator. -/
def splitCharAux (c : Char) : List Char → List Char → List String
  | [], acc => [String.mk acc.reverse]
  | x :: xs, acc =>
    if x = c then String.mk acc.reverse :: splitCharAux c xs []
    else splitCharAux c xs (x :: acc)

/-- `strings.Split` (and the line splitting of a `bufio.Scanner`) for a
one-character separator. -/
def splitOnChar (c : Char) (s : String) : List String :=
  splitCharAux c s.toList []

/-- `pkg/models.CollectionSource`. -/
inductive CollectionSource where
  | claudeCode
  | geminiCLI
  | amazonQ
deriving DecidableEq, Repr

/-- `pkg/models.Message`.  The `map[string]string` metadata is a list of
key/value pairs in insertion order. -/
structure Message where
  id : String
  role : String
  content : String
  timestamp : Int
  metadata : List (String × String)
deriving DecidableEq, Repr

/-- `pkg/models.SessionData` (the normalized Record).  `Files` and `Commands`
are never populated by the collectors under verification and are omitted. -/
structure SessionData where
  id : String
  source : CollectionSource
  timestamp : Int
  title : String
  messages : List Message
  metadata : List (String × String)
deriving DecidableEq, Repr

/-- `pkg/models.DateRange`.  The Go field `End` is written `endT` because
`end` is a Lean keyword. -/
structure DateRange where
  start : Int
  endT : Int
deriving DecidableEq, Repr

/-- `pkg/models.CollectionConfig` (the CollectionRequest).  A nil
`*DateRange` is `none`. -/
structure CollectionConfig where
  sources : List CollectionSource
  includeFiles : Bool
  includeCommands : Bool
  dateRange : Option DateRange
  outputPath : String
  template : String
deriving DecidableEq, Repr

/-- `internal/config.CLIToolConfig`: the per-source configuration blob. -/
structure CLIToolConfig where
  configDir : String
  historyFile : String
  sessionDir : String
  includePatterns : List String
  excludePatterns : List String
deriving DecidableEq, Repr

/-- The slice of `os.FileInfo` the collectors consult. -/
structure FileInfo where
  size : Int
  isDir : Bool
  modTime : Int
deriving DecidableEq, Repr

/-- The filesystem as seen through the collectors' `FileReader` interfaces.
`stat p = none` models `os.IsNotExist`; `readFile` covers both
`FileReader.ReadFile` and `os.Open`-plus-scan; `walkFiles root` is the list
of non-directory files `WalkDir` visits under `root`, in visit order;
`homeDir` is `os.UserHomeDir()`. -/
structure FileSystem where
  stat : String → Option FileInfo
  readFile : String → Option String
  walkFiles : String → List String
  homeDir : Option String

/-- `filepath.Join` restricted to the shapes `ExpandPath` produces: the
second component has any leading slash dropped and the two are joined with a
single slash. -/
def filepathJoin (a b : String) : String :=
  let b' := if strStartsWith b "/" then strDrop b 1 else b
  if a = "" then b'
  else if b' = "" then a
  else a ++ "/" ++ b'

/-- `internal/config.ExpandPath`: a path not starting with `~` is returned
unchanged; otherwise the home directory replaces the `~`. -/
def expandPath (fs : FileSystem) (path : String) : Except GoError String :=
  if path = "" then .ok path
  else if ¬ strStartsWith path "~" then .ok path
  else match fs.homeDir with
    | none => .error (.other "cannot find home directory")
    | some home => .ok (filepathJoin home (strDrop path 1))

/-- `ImprovedGeminiCLICollector.isWithinDateRange` (part_004:719-727). -/
def geminiIsWithinDateRange (timestamp : Int) (dateRange : DateRange) : Bool :=
  if !(timeIsZero dateRange.start) && timeBefore timestamp dateRange.start then false
  else if !(timeIsZero dateRange.endT) && timeAfter timestamp dateRange.endT then false
  else true

/-- `ImprovedGeminiCLICollector.filterByDateRange` (part_004:703-716); the
`Option` is the possibly-nil `*models.DateRange`. -/
def geminiFilterByDateRange (sessions : List SessionData) (dateRange : Option DateRange) :
    List SessionData :=
  match dateRange with
  | none => sessions
  | some dr => sessions.filter (fun session => geminiIsWithinDateRange session.timestamp dr)

/-- `AmazonQCollector.isWithinDateRange` (amazonq.go:871-879). -/
def amazonqIsWithinDateRange (timestamp : Int) (dateRange : DateRange) : Bool :=
  if !(timeIsZero dateRange.start) && timeBefore timestamp dateRange.start then false
  else if !(timeIsZero dateRange.endT) && timeAfter timestamp dateRange.endT then false
  else true

/-- `AmazonQCollector.filterByDateRange` (amazonq.go:855-868). -/
def amazonqFilterByDateRange (sessions : List SessionData) (dateRange : Option DateRange) :
    List SessionData :=
  match dateRange with
  | none => sessions
  | some dr => sessions.filter (fun session => amazonqIsWithinDateRange session.timestamp dr)

/-- `ClaudeCodeCollector.filterByDateRange` (claude.go:447-464): the same
retention condition written with `continue` instead of a helper. -/
def claudeFilterByDateRange (sessions : List SessionData) (dateRange : Option DateRange) :
    List SessionData :=
  match dateRange with
  | none => sessions
  | some dr => sessions.filter (fun session =>
      !(!(timeIsZero dr.start) && timeBefore session.timestamp dr.start) &&
      !(!(timeIsZero dr.endT) && timeAfter session.timestamp dr.endT))

lemma geminiIsWithinDateRange_eq_true_iff (ts : Int) (dr : DateRange) :
    geminiIsWithinDateRange ts dr = true ↔
      ((dr.start = 0 ∨ dr.start ≤ ts) ∧ (dr.endT = 0 ∨ ts ≤ dr.endT)) := by
  simp only [geminiIsWithinDateRange, timeIsZero, timeBefore, timeAfter]
  by_cases h1 : dr.start = 0 <;> by_cases h2 : dr.endT = 0 <;>
    simp [h1, h2]

lemma amazonqIsWithinDateRange_eq_geminiIsWithinDateRange (ts : Int) (dr : DateRange) :
    amazonqIsWithinDateRange ts dr = geminiIsWithinDateRange ts dr := rfl

/-- C4: for every record list and every date range, the date-range filter of
each collector retains a record iff `start` is zero-or-before its timestamp
and `end` is zero-or-after it (boundaries inclusive, zero bounds unbounded),
and the all-zero range returns the full set. -/
theorem c4_dateRangeFilter_boundary_inclusive :
    (∀ (sessions : List SessionData) (dr : DateRange) (s : SessionData),
        s ∈ geminiFilterByDateRange sessions (some dr) ↔
          s ∈ sessions ∧ ((dr.start = 0 ∨ dr.start ≤ s.timestamp) ∧
            (dr.endT = 0 ∨ s.timestamp ≤ dr.endT))) ∧
    (∀ (sessions : List SessionData) (dr : DateRange) (s : SessionData),
        s ∈ amazonqFilterByDateRange sessions (some dr) ↔
          s ∈ sessions ∧ ((dr.start = 0 ∨ dr.start ≤ s.timestamp) ∧
            (dr.endT = 0 ∨ s.timestamp ≤ dr.endT))) ∧
    (∀ sessions : List SessionData,
        geminiFilterByDateRange sessions (some { start := 0, endT := 0 }) = sessions) ∧
    (∀ sessions : List SessionData,
        amazonqFilterByDateRange sessions (some { start := 0, endT := 0 }) = sessions) := by
  refine ⟨?_, ?_, ?_, ?_⟩
  · intro sessions dr s
    simp [geminiFilterByDateRange, List.mem_filter, geminiIsWithinDateRange_eq_true_iff]
  · intro sessions dr s
    simp [amazonqFilterByDateRange, List.mem_filter,
      amazonqIsWithinDateRange_eq_geminiIsWithinDateRange,
      geminiIsWithinDateRange_eq_true_iff]
  · intro sessions
    simp [geminiFilterByDateRange, List.filter_eq_self, geminiIsWithinDateRange_eq_true_iff]
  · intro sessions
    simp [amazonqFilterByDateRange, List.filter_eq_self,
      amazonqIsWithinDateRange_eq_geminiIsWithinDateRange,
      geminiIsWithinDateRange_eq_true_iff]

/-- C10: the date-range filter is idempotent, and a nil range returns the
input unchanged, for both implementations cited. -/
theorem c10_dateRangeFilter_idempotent :
    (∀ (sessions : List SessionData) (dateRange : Option DateRange),
        geminiFilterByDateRange (geminiFilterByDateRange sessions dateRange) dateRange =
          geminiFilterByDateRange sessions dateRange) ∧
    (∀ (sessions : List SessionData) (dateRange : Option DateRange),
        amazonqFilterByDateRange (amazonqFilterByDateRange sessions dateRange) dateRange =
          amazonqFilterByDateRange sessions dateRange) ∧
    (∀ sessions : List SessionData, geminiFilterByDateRange sessions none = sessions) ∧
    (∀ sessions : List SessionData, amazonqFilterByDateRange sessions none = sessions) := by
  refine ⟨?_, ?_, fun _ => rfl, fun _ => rfl⟩
  · intro sessions dateRange
    cases dateRange with
    | none => rfl
    | some dr =>
      simp [geminiFilterByDateRange, List.filter_filter]
  · intro sessions dateRange
    cases dateRange with
    | none => rfl
    | some dr =>
      simp [amazonqFilterByDateRange, List.filter_filter]

/-! ## A model of `encoding/json`

The collectors decode JSON with `json.Decoder.Decode`, `json.Unmarshal` and
(for the Gemini history schema) `DisallowUnknownFields`.  We model JSON
values as an inductive type and give an executable parser for the JSON
subset those inputs exercise: objects, arrays, strings without escape
sequences, integer numbers, `true`/`false`/`null`, with insignificant
whitespace.  Inputs outside the subset (string escapes, fractional or
exponent numbers) fail to parse, which no theorem below relies on. -/

/-- A JSON value. -/
inductive Json where
  | null
  | bool (b : Bool)
  | num (n : Int)
  | str (s : String)
  | arr (elems : List Json)
  | obj (fields : List (String × Json))

/-- Skip JSON insignificant whitespace. -/
def jsonSkipWs : List Char → List Char
  | c :: cs =>
    if c = ' ' ∨ c = '\t' ∨ c = '\n' ∨ c = '\r' then jsonSkipWs cs else c :: cs
  | [] => []

/-- Consume a string body after the opening quote; escape sequences are
outside the modelled subset and fail. -/
def jsonTakeStringBody : List Char → Option (List Char × List Char)
  | [] => none
  | c :: cs =>
    if c = '"' then some ([], cs)
    else if c = '\\' then none
    else match jsonTakeStringBody cs with
      | some (body, rest) => some (c :: body, rest)
      | none => none

/-- Decimal digits to a natural number. -/
def charsToNat (cs : List Char) : Nat :=
  cs.foldl (fun n c => 10 * n + (c.toNat - 48)) 0

/-- An integer JSON number token (fractions and exponents are outside the
modelled subset). -/
def jsonParseNumTok (cs : List Char) : Option (Json × List Char) :=
  match cs with
  | '-' :: rest =>
    let p := rest.span Char.isDigit
    if p.1.isEmpty then none else some (.num (-(charsToNat p.1 : Int)), p.2)
  | _ =>
    let p := cs.span Char.isDigit
    if p.1.isEmpty then none else some (.num (charsToNat p.1 : Int), p.2)

mutual

/-- Parse one JSON value, returning it with the unconsumed remainder. -/
def jsonParseVal : Nat → List Char → Option (Json × List Char)
  | 0, _ => none
  | Nat.succ fuel, cs =>
    match jsonSkipWs cs with
    | [] => none
    | '{' :: rest =>
      match jsonSkipWs rest with
      | '}' :: rest2 => some (.obj [], rest2)
      | rest1 =>
        match jsonParseMembers fuel rest1 with
        | some (fields, rest2) => some (.obj fields, rest2)
        | none => none
    | '[' :: rest =>
      match jsonSkipWs rest with
      | ']' :: rest2 => some (.arr [], rest2)
      | rest1 =>
        match jsonParseElems fuel rest1 with
        | some (elems, rest2) => some (.arr elems, rest2)
        | none => none
    | '"' :: rest =>
      match jsonTakeStringBody rest with
      | some (body, rest2) => some (.str (String.mk body), rest2)
      | none => none
    | 't' :: 'r' :: 'u' :: 'e' :: rest => some (.bool true, rest)
    | 'f' :: 'a' :: 'l' :: 's' :: 'e' :: rest => some (.bool false, rest)
    | 'n' :: 'u' :: 'l' :: 'l' :: rest => some (.null, rest)
    | other => jsonParseNumTok other

/-- Parse the members of an object after `{` (at least one member). -/
def jsonParseMembers : Nat → List Char → Option (List (String × Json) × List Char)
  | 0, _ => none
  | Nat.succ fuel, cs =>
    match jsonSkipWs cs with
    | '"' :: rest =>
      match jsonTakeStringBody rest with
      | some (key, rest1) =>
        match jsonSkipWs rest1 with
        | ':' :: rest2 =>
          match jsonParseVal fuel rest2 with
          | some (v, rest3) =>
            match jsonSkipWs rest3 with
            | ',' :: rest4 =>
              match jsonParseMembers fuel rest4 with
              | some (fields, rest5) => some ((String.mk key, v) :: fields, rest5)
              | none => none
            | '}' :: rest4 => some ([(String.mk key, v)], rest4)
            | _ => none
          | none => none
        | _ => none
      | none => none
    | _ => none

/-- Parse the elements of an array after `[` (at least one element). -/
def jsonParseElems : Nat → List Char → Option (List Json × List Char)
  | 0, _ => none
  | Nat.succ fuel, cs =>
    match jsonParseVal fuel cs with
    | some (v, rest) =>
      match jsonSkipWs rest with
      | ',' :: rest1 =>
        match jsonParseElems fuel rest1 with
        | some (elems, rest2) => some (v :: elems, rest2)
        | none => none
      | ']' :: rest1 => some ([v], rest1)
      | _ => none
    | none => none

end

/-- `json.Decoder.Decode` on a string reader: reads the next JSON value,
ignoring anything after it. -/
def jsonDecodeOne (s : String) : Option Json :=
  match jsonParseVal (s.length + 1) s.toList with
  | some (j, _) => some j
  | none => none

/-- `json.Unmarshal`: the whole input must be one JSON value, allowing
trailing whitespace only. -/
def jsonUnmarshalVal (s : String) : Option Json :=
  match jsonParseVal (s.length + 1) s.toList with
  | some (j, rest) => if jsonSkipWs rest = [] then some j else none
  | none => none

/-! ## A model of `time.Parse(time.RFC3339, _)`

Only the offset-free second-precision form `YYYY-MM-DDThh:mm:ssZ` is in the
modelled subset; everything else fails to parse, as do out-of-range
components (with a simplified 31-day month bound). -/

/-- Days from 1970-01-01 of a proleptic-Gregorian civil date
(Howard Hinnant's `days_from_civil`; all intermediate divisions act on
non-negative operands, where `Int` truncation agrees with floor). -/
def daysFromCivil (y m d : Int) : Int :=
  let y' := if m ≤ 2 then y - 1 else y
  let era := (if y' ≥ 0 then y' else y' - 399) / 400
  let yoe := y' - era * 400
  let doy := (153 * (if m > 2 then m - 3 else m + 9) + 2) / 5 + d - 1
  let doe := yoe * 365 + yoe / 4 - yoe / 100 + doy
  era * 146097 + doe - 719468

/-- Nanoseconds since Go's zero time (0001-01-01T00:00:00Z) of a civil
date-time. -/
def goTimeOfDate (y mo d h mi s : Int) : Int :=
  ((daysFromCivil y mo d) * 86400 + h * 3600 + mi * 60 + s + 62135596800) * 1000000000

/-- A decimal digit's value. -/
def digitVal (c : Char) : Int := (c.toNat : Int) - 48

/-- Model of `time.Parse(time.RFC3339, s)`. -/
def parseRFC3339 (s : String) : Option Int :=
  match s.toList with
  | [y1, y2, y3, y4, '-', o1, o2, '-', d1, d2, 'T',
     h1, h2, ':', i1, i2, ':', s1, s2, 'Z'] =>
    if [y1, y2, y3, y4, o1, o2, d1, d2, h1, h2, i1, i2, s1, s2].all Char.isDigit then
      let y := digitVal y1 * 1000 + digitVal y2 * 100 + digitVal y3 * 10 + digitVal y4
      let mo := digitVal o1 * 10 + digitVal o2
      let d := digitVal d1 * 10 + digitVal d2
      let h := digitVal h1 * 10 + digitVal h2
      let mi := digitVal i1 * 10 + digitVal i2
      let ss := digitVal s1 * 10 + digitVal s2
      if 1 ≤ mo ∧ mo ≤ 12 ∧ 1 ≤ d ∧ d ≤ 31 ∧ h ≤ 23 ∧ mi ≤ 59 ∧ ss ≤ 59 then
        some (goTimeOfDate y mo d h mi ss)
      else none
    else none
  | _ => none

/-! ## History entry schemas and their decoders -/

/-- `maxMessagesPerFile` / `amazonQMaxMessagesPerFile` (both 10000). -/
def maxMessagesPerFile : Nat := 10000

/-- `maxFileSize` / `amazonQMaxFileSize` (both 100MB). -/
def maxFileSize : Int := 100 * 1024 * 1024

/-- Decoding a JSON value into a Go `string` struct field: a string sets it,
`null` leaves the current value, anything else is a type error. -/
def jsonAsStringField (v : Json) (cur : String) : Option String :=
  match v with
  | .str s => some s
  | .null => some cur
  | _ => none

/-- Decoding a JSON value into a Go `map[string]interface{}` field. -/
def jsonAsObjField (v : Json) (cur : List (String × Json)) :
    Option (List (String × Json)) :=
  match v with
  | .obj fields => some fields
  | .null => some cur
  | _ => none

/-- `GeminiHistoryEntry` (part_004:307-315). -/
structure GeminiHistoryEntry where
  id : String := ""
  command : String := ""
  prompt : String := ""
  response : String := ""
  timestamp : String := ""
  model : String := ""
  metadata : List (String × Json) := []

/-- The JSON keys `GeminiHistoryEntry` declares. -/
def geminiEntryKeys : List String :=
  ["id", "command", "prompt", "response", "timestamp", "model", "metadata"]

/-- One field assignment of the strict `GeminiHistoryEntry` decode under
`DisallowUnknownFields` (part_004:294-304): an unknown key, or a
type-incompatible value for a known key, is a decode error (`none`). -/
def applyGeminiEntryField (e : GeminiHistoryEntry) (k : String) (v : Json) :
    Option GeminiHistoryEntry :=
  if k = "id" then (jsonAsStringField v e.id).map (fun s => { e with id := s })
  else if k = "command" then
    (jsonAsStringField v e.command).map (fun s => { e with command := s })
  else if k = "prompt" then
    (jsonAsStringField v e.prompt).map (fun s => { e with prompt := s })
  else if k = "response" then
    (jsonAsStringField v e.response).map (fun s => { e with response := s })
  else if k = "timestamp" then
    (jsonAsStringField v e.timestamp).map (fun s => { e with timestamp := s })
  else if k = "model" then
    (jsonAsStringField v e.model).map (fun s => { e with model := s })
  else if k = "metadata" then
    (jsonAsObjField v e.metadata).map (fun m => { e with metadata := m })
  else none

/-- Fold the fields of a JSON object into a `GeminiHistoryEntry`, strictly. -/
def decodeGeminiEntryFields :
    List (String × Json) → GeminiHistoryEntry → Option GeminiHistoryEntry
  | [], e => some e
  | (k, v) :: rest, e =>
    match applyGeminiEntryField e k v with
    | some e2 => decodeGeminiEntryFields rest e2
    | none => none

/-- Strict decode of one JSON value into `GeminiHistoryEntry` (a JSON `null`
decodes into the zero struct without error, as in Go). -/
def decodeGeminiHistoryEntry (j : Json) : Option GeminiHistoryEntry :=
  match j with
  | .obj fields => decodeGeminiEntryFields fields {}
  | .null => some {}
  | _ => none

/-- `AmazonQHistoryEntry` (amazonq.go:360-372). -/
structure AmazonQHistoryEntry where
  id : String := ""
  conversationID : String := ""
  query : String := ""
  response : String := ""
  timestamp : String := ""
  service : String := ""
  region : String := ""
  userID : String := ""
  sessionType : String := ""
  context : List (String × Json) := []
  metadata : List (String × Json) := []

/-- One field assignment of the lax `AmazonQHistoryEntry` decode.  The
Amazon Q decoder does **not** call `DisallowUnknownFields`
(amazonq.go:348-357), so an unknown key is silently skipped (the entry is
returned unchanged); a type-incompatible value for a known key is still a
decode error. -/
def applyAmazonQEntryField (e : AmazonQHistoryEntry) (k : String) (v : Json) :
    Option AmazonQHistoryEntry :=
  if k = "id" then (jsonAsStringField v e.id).map (fun s => { e with id := s })
  else if k = "conversation_id" then
    (jsonAsStringField v e.conversationID).map (fun s => { e with conversationID := s })
  else if k = "query" then
    (jsonAsStringField v e.query).map (fun s => { e with query := s })
  else if k = "response" then
    (jsonAsStringField v e.response).map (fun s => { e with response := s })
  else if k = "timestamp" then
    (jsonAsStringField v e.timestamp).map (fun s => { e with timestamp := s })
  else if k = "service" then
    (jsonAsStringField v e.service).map (fun s => { e with service := s })
  else if k = "region" then
    (jsonAsStringField v e.region).map (fun s => { e with region := s })
  else if k = "user_id" then
    (jsonAsStringField v e.userID).map (fun s => { e with userID := s })
  else if k = "session_type" then
    (jsonAsStringField v e.sessionType).map (fun s => { e with sessionType := s })
  else if k = "context" then
    (jsonAsObjField v e.context).map (fun m => { e with context := m })
  else if k = "metadata" then
    (jsonAsObjField v e.metadata).map (fun m => { e with metadata := m })
  else some e

/-- Fold the fields of a JSON object into an `AmazonQHistoryEntry`, laxly. -/
def decodeAmazonQEntryFields :
    List (String × Json) → AmazonQHistoryEntry → Option AmazonQHistoryEntry
  | [], e => some e
  | (k, v) :: rest, e =>
    match applyAmazonQEntryField e k v with
    | some e2 => decodeAmazonQEntryFields rest e2
    | none => none

/-- Lax decode of one JSON value into `AmazonQHistoryEntry`. -/
def decodeAmazonQHistoryEntry (j : Json) : Option AmazonQHistoryEntry :=
  match j with
  | .obj fields => decodeAmazonQEntryFields fields {}
  | .null => some {}
  | _ => none

/-! ## Streaming line parser (strategy (a)) -/

/-- `ImprovedGeminiCLICollector.extractTitleFromPrompt` (part_004:681-700).
Go slices bytes; the model slices characters, which agrees on ASCII. -/
def geminiExtractTitleFromPrompt (prompt : String) : String :=
  if prompt.length = 0 then "Gemini CLI Session"
  else
    let lines := splitOnChar '\n' prompt
    let title := strTrim (lines.headD "")
    let title := if 100 < title.length then strTake title 97 ++ "..." else title
    if title = "" then "Gemini CLI Session" else title

/-- `AmazonQCollector.extractTitleFromQuery` (amazonq.go:833-852). -/
def amazonqExtractTitleFromQuery (query : String) : String :=
  if query.length = 0 then "Amazon Q CLI Session"
  else
    let lines := splitOnChar '\n' query
    let title := strTrim (lines.headD "")
    let title := if 100 < title.length then strTake title 97 ++ "..." else title
    if title = "" then "Amazon Q CLI Session" else title

/-- `ImprovedGeminiCLICollector.convertHistoryEntryToSession`
(part_004:353-405). -/
def geminiConvertHistoryEntryToSession (entry : GeminiHistoryEntry) (index : Nat)
    (now : Int) : SessionData :=
  let sessionID := if entry.id = "" then "gemini-cli-history-" ++ toString index else entry.id
  let ts := if entry.timestamp ≠ "" then (parseRFC3339 entry.timestamp).getD now else now
  let userMsgs : List Message :=
    if entry.prompt ≠ "" then
      [{ id := sessionID ++ "-user", role := "user", content := entry.prompt,
         timestamp := ts, metadata := [] }]
    else []
  let assistantMsgs : List Message :=
    if entry.response ≠ "" then
      [{ id := sessionID ++ "-assistant", role := "assistant", content := entry.response,
         timestamp := ts + 1000000000, metadata := [] }]
    else []
  { id := sessionID
    source := .geminiCLI
    timestamp := ts
    title := geminiExtractTitleFromPrompt entry.prompt
    messages := userMsgs ++ assistantMsgs
    metadata := [("model", entry.model), ("command", entry.command),
                 ("source_type", "gemini_cli_history")] }

/-- `AmazonQCollector.convertHistoryEntryToSession` (amazonq.go:411-470). -/
def amazonqConvertHistoryEntryToSession (entry : AmazonQHistoryEntry) (index : Nat)
    (now : Int) : SessionData :=
  let sessionID := if entry.id = "" then "amazonq-history-" ++ toString index else entry.id
  let ts := if entry.timestamp ≠ "" then (parseRFC3339 entry.timestamp).getD now else now
  let userMsgs : List Message :=
    if entry.query ≠ "" then
      [{ id := sessionID ++ "-user", role := "user", content := entry.query,
         timestamp := ts,
         metadata := [("service", entry.service), ("region", entry.region)] }]
    else []
  let assistantMsgs : List Message :=
    if entry.response ≠ "" then
      [{ id := sessionID ++ "-assistant", role := "assistant", content := entry.response,
         timestamp := ts + 1000000000,
         metadata := [("service", entry.service), ("region", entry.region)] }]
    else []
  { id := sessionID
    source := .amazonQ
    timestamp := ts
    title := amazonqExtractTitleFromQuery entry.query
    messages := userMsgs ++ assistantMsgs
    metadata := [("service", entry.service), ("region", entry.region),
                 ("user_id", entry.userID), ("conversation_id", entry.conversationID),
                 ("session_type", entry.sessionType),
                 ("source_type", "amazon_q_history")] }

/-- `ImprovedGeminiCLICollector.parseTextHistoryEntry` (part_004:408-433). -/
def geminiParseTextHistoryEntry (line : String) (lineNum : Nat) (now : Int) :
    Option SessionData :=
  if (strTrim line).length = 0 then none
  else
    let sessionID := "gemini-cli-text-" ++ toString lineNum
    some
      { id := sessionID
        source := .geminiCLI
        timestamp := now
        title := "Gemini CLI History Entry"
        messages := [{ id := sessionID ++ "-user", role := "user", content := line,
                       timestamp := now,
                       metadata := [("source_type", "gemini_cli_text")] }]
        metadata := [("source_type", "gemini_cli_history"),
                     ("entry_number", toString lineNum)] }

/-- `AmazonQCollector.parseTextHistoryEntry` (amazonq.go:473-498). -/
def amazonqParseTextHistoryEntry (line : String) (lineNum : Nat) (now : Int) :
    Option SessionData :=
  if (strTrim line).length = 0 then none
  else
    let sessionID := "amazonq-text-" ++ toString lineNum
    some
      { id := sessionID
        source := .amazonQ
        timestamp := now
        title := "Amazon Q CLI History Entry"
        messages := [{ id := sessionID ++ "-user", role := "user", content := line,
                       timestamp := now,
                       metadata := [("source_type", "amazon_q_text")] }]
        metadata := [("source_type", "amazon_q_history"),
                     ("entry_number", toString lineNum)] }

/-- `ImprovedGeminiCLICollector.parseJSONHistoryEntry` (part_004:294-304):
strict decode (`DisallowUnknownFields`). -/
def geminiParseJSONHistoryEntry (line : String) (lineNum : Nat) (now : Int) :
    Except GoError SessionData :=
  match jsonDecodeOne line with
  | none => .error (.other "failed to parse JSON")
  | some j =>
    match decodeGeminiHistoryEntry j with
    | none => .error (.other "failed to parse JSON")
    | some entry => .ok (geminiConvertHistoryEntryToSession entry lineNum now)

/-- `AmazonQCollector.parseJSONHistoryEntry` (amazonq.go:348-357): lax
decode (no `DisallowUnknownFields`). -/
def amazonqParseJSONHistoryEntry (line : String) (lineNum : Nat) (now : Int) :
    Except GoError SessionData :=
  match jsonDecodeOne line with
  | none => .error (.other "failed to parse JSON")
  | some j =>
    match decodeAmazonQHistoryEntry j with
    | none => .error (.other "failed to parse JSON")
    | some entry => .ok (amazonqConvertHistoryEntryToSession entry lineNum now)

/-- `ImprovedGeminiCLICollector.parseHistoryLine` (part_004:283-291). -/
def geminiParseHistoryLine (line : String) (lineNum : Nat) (now : Int) :
    Except GoError (Option SessionData) :=
  if strStartsWith line "\x7b" then (geminiParseJSONHistoryEntry line lineNum now).map some
  else .ok (geminiParseTextHistoryEntry line lineNum now)

/-- `AmazonQCollector.parseHistoryLine` (amazonq.go:337-345). -/
def amazonqParseHistoryLine (line : String) (lineNum : Nat) (now : Int) :
    Except GoError (Option SessionData) :=
  if strStartsWith line "\x7b" then (amazonqParseJSONHistoryEntry line lineNum now).map some
  else .ok (amazonqParseTextHistoryEntry line lineNum now)

/-- The per-line loop of `parseHistoryFileStreaming`, shared in shape by both
collectors (part_004:244-273, amazonq.go:304-331): a context check per
iteration, blank lines skipped, a failed line logged and skipped, and an
early stop once `maxMessagesPerFile` records have accumulated.
`parseLine` is the collector's `parseHistoryLine`; `lineNum` counts the
lines already consumed. -/
def parseHistoryLoop (parseLine : String → Nat → Except GoError (Option SessionData))
    (ctxErr : Option GoError) :
    List String → Nat → List SessionData → Except GoError (List SessionData)
  | [], _, sessions => .ok sessions
  | rawLine :: rest, lineNum, sessions =>
    match ctxErr with
    | some e => .error e
    | none =>
      let line := strTrim rawLine
      if line = "" then parseHistoryLoop parseLine ctxErr rest (lineNum + 1) sessions
      else
        match parseLine line (lineNum + 1) with
        | .error _ => parseHistoryLoop parseLine ctxErr rest (lineNum + 1) sessions
        | .ok none => parseHistoryLoop parseLine ctxErr rest (lineNum + 1) sessions
        | .ok (some session) =>
          let sessions' := sessions ++ [session]
          if maxMessagesPerFile ≤ sessions'.length then .ok sessions'
          else parseHistoryLoop parseLine ctxErr rest (lineNum + 1) sessions'

/-- `ImprovedGeminiCLICollector.parseHistoryFileStreaming` (part_004:233-280):
opens the file directly with `os.Open` and scans it line by line.  (The
64KB scanner line cap is outside the model: no modelled input has lines that
long.) -/
def geminiParseHistoryFileStreaming (fs : FileSystem) (ctxErr : Option GoError)
    (now : Int) (filePath : String) : Except GoError (List SessionData) :=
  match fs.readFile filePath with
  | none => .error (.other "failed to open history file")
  | some content =>
    parseHistoryLoop (fun line lineNum => geminiParseHistoryLine line lineNum now)
      ctxErr (splitOnChar '\n' content) 0 []

/-- `AmazonQCollector.parseHistoryFileStreaming` (amazonq.go:293-334): reads
via the injected `fileReader` and splits on newlines. -/
def amazonqParseHistoryFileStreaming (fs : FileSystem) (ctxErr : Option GoError)
    (now : Int) (filePath : String) : Except GoError (List SessionData) :=
  match fs.readFile filePath with
  | none => .error (.other "failed to read history file")
  | some content =>
    parseHistoryLoop (fun line lineNum => amazonqParseHistoryLine line lineNum now)
      ctxErr (splitOnChar '\n' content) 0 []

/-- `ImprovedGeminiCLICollector.collectFromHistoryWithRetry`
(part_004:212-230): a stat failure is an error, an oversized file is an
error. -/
def geminiCollectFromHistoryWithRetry (fs : FileSystem) (ctxErr : Option GoError)
    (now : Int) (cfg : CLIToolConfig) : Except GoError (List SessionData) :=
  match expandPath fs cfg.historyFile with
  | .error _ => .error (.other "failed to expand history file path")
  | .ok historyPath =>
    match fs.stat historyPath with
    | none => .error (.other "failed to stat history file")
    | some info =>
      if maxFileSize < info.size then .error (.other "history file too large")
      else geminiParseHistoryFileStreaming fs ctxErr now historyPath

/-- `AmazonQCollector.collectFromHistoryWithRetry` (amazonq.go:268-290): a
missing history file yields a warning and an empty ok result, an oversized
file an error. -/
def amazonqCollectFromHistoryWithRetry (fs : FileSystem) (ctxErr : Option GoError)
    (now : Int) (cfg : CLIToolConfig) : Except GoError (List SessionData) :=
  match expandPath fs cfg.historyFile with
  | .error _ => .error (.other "failed to expand history file path")
  | .ok historyPath =>
    match fs.stat historyPath with
    | none => .ok []
    | some info =>
      if maxFileSize < info.size then .error (.other "history file too large")
      else amazonqParseHistoryFileStreaming fs ctxErr now historyPath

/-! ## Session-file parsing (strategy (b)) -/

/-- `filepath.Base`. -/
def filepathBase (p : String) : String :=
  if p = "" then "."
  else
    let t := (p.toList.reverse.dropWhile (fun c => c = '/')).reverse
    if t = [] then "/"
    else String.mk ((t.reverse.takeWhile (fun c => c ≠ '/')).reverse)

/-- `filepath.Ext`: the suffix from the final dot in the final path element. -/
def filepathExt (p : String) : String :=
  let seg := p.toList.reverse.takeWhile (fun c => c ≠ '/')
  if seg.contains '.' then String.mk ('.' :: (seg.takeWhile (fun c => c ≠ '.')).reverse)
  else ""

/-- `strings.TrimSuffix`. -/
def stringTrimSuffix (s suffix : String) : String :=
  if suffix ≠ "" ∧ strEndsWith s suffix then strDropRight s suffix.length else s

/-- `GeminiMessagePart` (part_004:340-343). -/
structure GeminiMessagePart where
  type : String := ""
  text : String := ""

/-- `GeminiMessage` (part_004:330-337). -/
structure GeminiMessage where
  id : String := ""
  role : String := ""
  content : String := ""
  parts : List GeminiMessagePart := []
  timestamp : String := ""
  metadata : List (String × Json) := []

/-- `GeminiSessionSettings` (part_004:346-350); `temperature` is a float in
Go, held as `Int` here since only integer literals are in the modelled JSON
subset. -/
structure GeminiSessionSettings where
  model : String := ""
  temperature : Int := 0
  maxTokens : Int := 0

/-- `GeminiSessionData` (part_004:318-327). -/
structure GeminiSessionData where
  id : String := ""
  title : String := ""
  createdAt : String := ""
  updatedAt : String := ""
  model : String := ""
  messages : List GeminiMessage := []
  metadata : List (String × Json) := []
  settings : Option GeminiSessionSettings := none

/-- Decoding a JSON value into a Go `int` (or modelled-as-int) field. -/
def jsonAsIntField (v : Json) (cur : Int) : Option Int :=
  match v with
  | .num n => some n
  | .null => some cur
  | _ => none

/-- Lax decode of a `GeminiMessagePart` object. -/
def decodeGeminiMessagePartFields :
    List (String × Json) → GeminiMessagePart → Option GeminiMessagePart
  | [], e => some e
  | (k, v) :: rest, e =>
    if k = "type" then
      match jsonAsStringField v e.type with
      | some s => decodeGeminiMessagePartFields rest { e with type := s }
      | none => none
    else if k = "text" then
      match jsonAsStringField v e.text with
      | some s => decodeGeminiMessagePartFields rest { e with text := s }
      | none => none
    else decodeGeminiMessagePartFields rest e

/-- Lax decode of one JSON value into `GeminiMessagePart`. -/
def decodeGeminiMessagePart (j : Json) : Option GeminiMessagePart :=
  match j with
  | .obj fields => decodeGeminiMessagePartFields fields {}
  | .null => some {}
  | _ => none

/-- Decode a JSON array elementwise with `dec`, failing if any element
fails. -/
def decodeJsonList {α : Type} (dec : Json → Option α) : List Json → Option (List α)
  | [] => some []
  | j :: rest =>
    match dec j with
    | some a =>
      match decodeJsonList dec rest with
      | some as => some (a :: as)
      | none => none
    | none => none

/-- Decoding a JSON value into a Go slice field. -/
def jsonAsListField {α : Type} (dec : Json → Option α) (v : Json) (cur : List α) :
    Option (List α) :=
  match v with
  | .arr elems => decodeJsonList dec elems
  | .null => some cur
  | _ => none

/-- Lax decode of a `GeminiMessage` object. -/
def decodeGeminiMessageFields :
    List (String × Json) → GeminiMessage → Option GeminiMessage
  | [], e => some e
  | (k, v) :: rest, e =>
    if k = "id" then
      match jsonAsStringField v e.id with
      | some s => decodeGeminiMessageFields rest { e with id := s }
      | none => none
    else if k = "role" then
      match jsonAsStringField v e.role with
      | some s => decodeGeminiMessageFields rest { e with role := s }
      | none => none
    else if k = "content" then
      match jsonAsStringField v e.content with
      | some s => decodeGeminiMessageFields rest { e with content := s }
      | none => none
    else if k = "parts" then
      match jsonAsListField decodeGeminiMessagePart v e.parts with
      | some ps => decodeGeminiMessageFields rest { e with parts := ps }
      | none => none
    else if k = "timestamp" then
      match jsonAsStringField v e.timestamp with
      | some s => decodeGeminiMessageFields rest { e with timestamp := s }
      | none => none
    else if k = "metadata" then
      match jsonAsObjField v e.metadata with
      | some m => decodeGeminiMessageFields rest { e with metadata := m }
      | none => none
    else decodeGeminiMessageFields rest e

/-- Lax decode of one JSON value into `GeminiMessage`. -/
def decodeGeminiMessage (j : Json) : Option GeminiMessage :=
  match j with
  | .obj fields => decodeGeminiMessageFields fields {}
  | .null => some {}
  | _ => none

/-- Lax decode of a `GeminiSessionSettings` object. -/
def decodeGeminiSettingsFields :
    List (String × Json) → GeminiSessionSettings → Option GeminiSessionSettings
  | [], e => some e
  | (k, v) :: rest, e =>
    if k = "model" then
      match jsonAsStringField v e.model with
      | some s => decodeGeminiSettingsFields rest { e with model := s }
      | none => none
    else if k = "temperature" then
      match jsonAsIntField v e.temperature with
      | some n => decodeGeminiSettingsFields rest { e with temperature := n }
      | none => none
    else if k = "max_tokens" then
      match jsonAsIntField v e.maxTokens with
      | some n => decodeGeminiSettingsFields rest { e with maxTokens := n }
      | none => none
    else decodeGeminiSettingsFields rest e

/-- Decoding a JSON value into the nullable `*GeminiSessionSettings` field. -/
def jsonAsGeminiSettingsField (v : Json) (cur : Option GeminiSessionSettings) :
    Option (Option GeminiSessionSettings) :=
  match v with
  | .obj fields =>
    match decodeGeminiSettingsFields fields {} with
    | some s => some (some s)
    | none => none
  | .null => some cur
  | _ => none

/-- Lax decode of a `GeminiSessionData` object. -/
def decodeGeminiSessionFields :
    List (String × Json) → GeminiSessionData → Option GeminiSessionData
  | [], e => some e
  | (k, v) :: rest, e =>
    if k = "id" then
      match jsonAsStringField v e.id with
      | some s => decodeGeminiSessionFields rest { e with id := s }
      | none => none
    else if k = "title" then
      match jsonAsStringField v e.title with
      | some s => decodeGeminiSessionFields rest { e with title := s }
      | none => none
    else if k = "created_at" then
      match jsonAsStringField v e.createdAt with
      | some s => decodeGeminiSessionFields rest { e with createdAt := s }
      | none => none
    else if k = "updated_at" then
      match jsonAsStringField v e.updatedAt with
      | some s => decodeGeminiSessionFields rest { e with updatedAt := s }
      | none => none
    else if k = "model" then
      match jsonAsStringField v e.model with
      | some s => decodeGeminiSessionFields rest { e with model := s }
      | none => none
    else if k = "messages" then
      match jsonAsListField decodeGeminiMessage v e.messages with
      | some ms => decodeGeminiSessionFields rest { e with messages := ms }
      | none => none
    else if k = "metadata" then
      match jsonAsObjField v e.metadata with
      | some m => decodeGeminiSessionFields rest { e with metadata := m }
      | none => none
    else if k = "settings" then
      match jsonAsGeminiSettingsField v e.settings with
      | some s => decodeGeminiSessionFields rest { e with settings := s }
      | none => none
    else decodeGeminiSessionFields rest e

/-- `json.Unmarshal` of a whole file into `GeminiSessionData`. -/
def jsonUnmarshalGeminiSession (data : String) : Option GeminiSessionData :=
  match jsonUnmarshalVal data with
  | some (.obj fields) => decodeGeminiSessionFields fields {}
  | some .null => some {}
  | _ => none

/-- `ImprovedGeminiCLICollector.extractContentFromGeminiMessage`
(part_004:638-652). -/
def geminiExtractContentFromGeminiMessage (msg : GeminiMessage) : String :=
  if msg.content ≠ "" then msg.content
  else
    let contents := (msg.parts.filter
      (fun part => part.type = "text" ∧ part.text ≠ "")).map (fun part => part.text)
    strIntercalate "\n" contents

/-- `ImprovedGeminiCLICollector.convertGeminiSessionToModel`
(part_004:587-635). -/
def geminiConvertGeminiSessionToModel (geminiSession : GeminiSessionData)
    (filePath : String) (now : Int) : SessionData :=
  let sessionID :=
    if geminiSession.id = "" then "gemini-cli-" ++ filepathBase filePath
    else geminiSession.id
  let ts :=
    if geminiSession.createdAt ≠ "" then (parseRFC3339 geminiSession.createdAt).getD now
    else now
  { id := sessionID
    source := .geminiCLI
    timestamp := ts
    title := geminiSession.title
    messages := geminiSession.messages.map (fun geminiMsg =>
      { id := geminiMsg.id
        role := geminiMsg.role
        content := geminiExtractContentFromGeminiMessage geminiMsg
        timestamp :=
          if geminiMsg.timestamp ≠ "" then (parseRFC3339 geminiMsg.timestamp).getD ts
          else ts
        metadata := [] })
    metadata := [("file_path", filePath), ("model", geminiSession.model),
                 ("source_type", "gemini_cli_session")] }

/-- `ImprovedGeminiCLICollector.parseTextSession` (part_004:655-678). -/
def geminiParseTextSession (content : String) (path : String) (now : Int) :
    SessionData :=
  let fileName := filepathBase path
  let sessionID := "gemini-cli-text-" ++ stringTrimSuffix fileName (filepathExt fileName)
  { id := sessionID
    source := .geminiCLI
    timestamp := now
    title := "Gemini CLI Session: " ++ fileName
    messages := [{ id := sessionID ++ "-content", role := "user", content := content,
                   timestamp := now,
                   metadata := [("source_type", "gemini_cli_text")] }]
    metadata := [("file_path", path), ("source_type", "gemini_cli_text")] }

/-- `ImprovedGeminiCLICollector.parseSessionFileSafe` (part_004:559-584):
stat failure and an oversized file are errors; a file whose content fails to
unmarshal degrades to a one-message text session. -/
def geminiParseSessionFileSafe (fs : FileSystem) (now : Int) (path : String) :
    Except GoError SessionData :=
  match fs.stat path with
  | none => .error (.other "failed to stat file")
  | some info =>
    if maxFileSize < info.size then .error (.other "file too large")
    else
      match fs.readFile path with
      | none => .error (.other "failed to read file")
      | some data =>
        match jsonUnmarshalGeminiSession data with
        | none => .ok (geminiParseTextSession data path now)
        | some sessionData => .ok (geminiConvertGeminiSessionToModel sessionData path now)

/-- The records the worker pool produces for a path list, determinised to
path order: each path is parsed with `parseSessionFileSafe`, failures go to
the error channel and contribute nothing. -/
def sessionsFromPaths (parseFile : String → Except GoError SessionData)
    (paths : List String) : List SessionData :=
  paths.filterMap (fun p => (parseFile p).toOption)

/-- `ImprovedGeminiCLICollector.collectFromSessionDirConcurrent`
(part_004:436-531).  The walk keeps `.json` files; with no files the worker
count is zero and the empty result returns immediately; with a cancelled
context the collecting loop returns the context's error and discards
received records; otherwise the pool's merged output is the per-path parse
results in path order. -/
def geminiCollectFromSessionDirConcurrent (fs : FileSystem) (ctxErr : Option GoError)
    (now : Int) (cfg : CLIToolConfig) : Except GoError (List SessionData) :=
  match expandPath fs cfg.sessionDir with
  | .error _ => .error (.other "failed to expand session directory path")
  | .ok sessionDirPath =>
    let filePaths := (fs.walkFiles sessionDirPath).filter (fun p => strEndsWith p ".json")
    if filePaths.length = 0 then .ok []
    else
      match ctxErr with
      | some e => .error e
      | none => .ok (sessionsFromPaths (geminiParseSessionFileSafe fs now) filePaths)

/-- `AmazonQMessage` (amazonq.go:391-400). -/
structure AmazonQMessage where
  id : String := ""
  role : String := ""
  content : String := ""
  timestamp : String := ""
  messageType : String := ""
  service : String := ""
  context : List (String × Json) := []
  metadata : List (String × Json) := []

/-- `AmazonQSessionSettings` (amazonq.go:403-408); `temperature` is a float
in Go, held as `Int` here. -/
structure AmazonQSessionSettings where
  service : String := ""
  region : String := ""
  maxTokens : Int := 0
  temperature : Int := 0

/-- `AmazonQSessionData` (amazonq.go:375-388). -/
structure AmazonQSessionData where
  id : String := ""
  conversationID : String := ""
  title : String := ""
  createdAt : String := ""
  updatedAt : String := ""
  service : String := ""
  region : String := ""
  userID : String := ""
  messages : List AmazonQMessage := []
  context : List (String × Json) := []
  settings : Option AmazonQSessionSettings := none
  metadata : List (String × Json) := []

/-- Lax decode of an `AmazonQMessage` object. -/
def decodeAmazonQMessageFields :
    List (String × Json) → AmazonQMessage → Option AmazonQMessage
  | [], e => some e
  | (k, v) :: rest, e =>
    if k = "id" then
      match jsonAsStringField v e.id with
      | some s => decodeAmazonQMessageFields rest { e with id := s }
      | none => none
    else if k = "role" then
      match jsonAsStringField v e.role with
      | some s => decodeAmazonQMessageFields rest { e with role := s }
      | none => none
    else if k = "content" then
      match jsonAsStringField v e.content with
      | some s => decodeAmazonQMessageFields rest { e with content := s }
      | none => none
    else if k = "timestamp" then
      match jsonAsStringField v e.timestamp with
      | some s => decodeAmazonQMessageFields rest { e with timestamp := s }
      | none => none
    else if k = "message_type" then
      match jsonAsStringField v e.messageType with
      | some s => decodeAmazonQMessageFields rest { e with messageType := s }
      | none => none
    else if k = "service" then
      match jsonAsStringField v e.service with
      | some s => decodeAmazonQMessageFields rest { e with service := s }
      | none => none
    else if k = "context" then
      match jsonAsObjField v e.context with
      | some m => decodeAmazonQMessageFields rest { e with context := m }
      | none => none
    else if k = "metadata" then
      match jsonAsObjField v e.metadata with
      | some m => decodeAmazonQMessageFields rest { e with metadata := m }
      | none => none
    else decodeAmazonQMessageFields rest e

/-- Lax decode of one JSON value into `AmazonQMessage`. -/
def decodeAmazonQMessage (j : Json) : Option AmazonQMessage :=
  match j with
  | .obj fields => decodeAmazonQMessageFields fields {}
  | .null => some {}
  | _ => none

/-- Lax decode of an `AmazonQSessionSettings` object. -/
def decodeAmazonQSettingsFields :
    List (String × Json) → AmazonQSessionSettings → Option AmazonQSessionSettings
  | [], e => some e
  | (k, v) :: rest, e =>
    if k = "service" then
      match jsonAsStringField v e.service with
      | some s => decodeAmazonQSettingsFields rest { e with service := s }
      | none => none
    else if k = "region" then
      match jsonAsStringField v e.region with
      | some s => decodeAmazonQSettingsFields rest { e with region := s }
      | none => none
    else if k = "max_tokens" then
      match jsonAsIntField v e.maxTokens with
      | some n => decodeAmazonQSettingsFields rest { e with maxTokens := n }
      | none => none
    else if k = "temperature" then
      match jsonAsIntField v e.temperature with
      | some n => decodeAmazonQSettingsFields rest { e with temperature := n }
      | none => none
    else decodeAmazonQSettingsFields rest e

/-- Decoding a JSON value into the nullable `*AmazonQSessionSettings`
field. -/
def jsonAsAmazonQSettingsField (v : Json) (cur : Option AmazonQSessionSettings) :
    Option (Option AmazonQSessionSettings) :=
  match v with
  | .obj fields =>
    match decodeAmazonQSettingsFields fields {} with
    | some s => some (some s)
    | none => none
  | .null => some cur
  | _ => none

/-- Lax decode of an `AmazonQSessionData` object. -/
def decodeAmazonQSessionFields :
    List (String × Json) → AmazonQSessionData → Option AmazonQSessionData
  | [], e => some e
  | (k, v) :: rest, e =>
    if k = "id" then
      match jsonAsStringField v e.id with
      | some s => decodeAmazonQSessionFields rest { e with id := s }
      | none => none
    else if k = "conversation_id" then
      match jsonAsStringField v e.conversationID with
      | some s => decodeAmazonQSessionFields rest { e with conversationID := s }
      | none => none
    else if k = "title" then
      match jsonAsStringField v e.title with
      | some s => decodeAmazonQSessionFields rest { e with title := s }
      | none => none
    else if k = "created_at" then
      match jsonAsStringField v e.createdAt with
      | some s => decodeAmazonQSessionFields rest { e with createdAt := s }
      | none => none
    else if k = "updated_at" then
      match jsonAsStringField v e.updatedAt with
      | some s => decodeAmazonQSessionFields rest { e with updatedAt := s }
      | none => none
    else if k = "service" then
      match jsonAsStringField v e.service with
      | some s => decodeAmazonQSessionFields rest { e with service := s }
      | none => none
    else if k = "region" then
      match jsonAsStringField v e.region with
      | some s => decodeAmazonQSessionFields rest { e with region := s }
      | none => none
    else if k = "user_id" then
      match jsonAsStringField v e.userID with
      | some s => decodeAmazonQSessionFields rest { e with userID := s }
      | none => none
    else if k = "messages" then
      match jsonAsListField decodeAmazonQMessage v e.messages with
      | some ms => decodeAmazonQSessionFields rest { e with messages := ms }
      | none => none
    else if k = "context" then
      match jsonAsObjField v e.context with
      | some m => decodeAmazonQSessionFields rest { e with context := m }
      | none => none
    else if k = "settings" then
      match jsonAsAmazonQSettingsField v e.settings with
      | some s => decodeAmazonQSessionFields rest { e with settings := s }
      | none => none
    else if k = "metadata" then
      match jsonAsObjField v e.metadata with
      | some m => decodeAmazonQSessionFields rest { e with metadata := m }
      | none => none
    else decodeAmazonQSessionFields rest e

/-- `json.Unmarshal` of a whole file into `AmazonQSessionData`. -/
def jsonUnmarshalAmazonQSession (data : String) : Option AmazonQSessionData :=
  match jsonUnmarshalVal data with
  | some (.obj fields) => decodeAmazonQSessionFields fields {}
  | some .null => some {}
  | _ => none

/-- `AmazonQCollector.convertAmazonQSessionToModel` (amazonq.go:662-717). -/
def amazonqConvertAmazonQSessionToModel (amazonQSession : AmazonQSessionData)
    (filePath : String) (now : Int) : SessionData :=
  let sessionID :=
    if amazonQSession.id = "" then "amazonq-" ++ filepathBase filePath
    else amazonQSession.id
  let ts :=
    if amazonQSession.createdAt ≠ "" then (parseRFC3339 amazonQSession.createdAt).getD now
    else now
  { id := sessionID
    source := .amazonQ
    timestamp := ts
    title := amazonQSession.title
    messages := amazonQSession.messages.map (fun amazonQMsg =>
      { id := amazonQMsg.id
        role := amazonQMsg.role
        content := amazonQMsg.content
        timestamp :=
          if amazonQMsg.timestamp ≠ "" then (parseRFC3339 amazonQMsg.timestamp).getD ts
          else ts
        metadata := [("service", amazonQMsg.service),
                     ("message_type", amazonQMsg.messageType)] })
    metadata := [("file_path", filePath), ("service", amazonQSession.service),
                 ("region", amazonQSession.region), ("user_id", amazonQSession.userID),
                 ("conversation_id", amazonQSession.conversationID),
                 ("source_type", "amazon_q_session")] }

/-- `AmazonQCollector.parseTextSession` (amazonq.go:720-743). -/
def amazonqParseTextSession (content : String) (path : String) (now : Int) :
    SessionData :=
  let fileName := filepathBase path
  let sessionID := "amazonq-text-" ++ stringTrimSuffix fileName (filepathExt fileName)
  { id := sessionID
    source := .amazonQ
    timestamp := now
    title := "Amazon Q CLI Session: " ++ fileName
    messages := [{ id := sessionID ++ "-content", role := "user", content := content,
                   timestamp := now,
                   metadata := [("source_type", "amazon_q_text")] }]
    metadata := [("file_path", path), ("source_type", "amazon_q_text")] }

/-- `AmazonQCollector.parseSessionFileSafe` (amazonq.go:634-659). -/
def amazonqParseSessionFileSafe (fs : FileSystem) (now : Int) (path : String) :
    Except GoError SessionData :=
  match fs.stat path with
  | none => .error (.other "failed to stat file")
  | some info =>
    if maxFileSize < info.size then .error (.other "file too large")
    else
      match fs.readFile path with
      | none => .error (.other "failed to read file")
      | some data =>
        match jsonUnmarshalAmazonQSession data with
        | none => .ok (amazonqParseTextSession data path now)
        | some sessionData => .ok (amazonqConvertAmazonQSessionToModel sessionData path now)

/-- `AmazonQCollector.isAmazonQFile` (amazonq.go:809-830). -/
def isAmazonQFile (filePath : String) : Bool :=
  let fileName := filepathBase filePath
  let fileExt := filepathExt fileName
  [".json", ".log", ".session", "amazonq", "aws-q", "q-cli"].any (fun pattern =>
    stringContainsSub (strToLower fileName) pattern || strToLower fileExt == pattern)

/-- `AmazonQCollector.collectFromSessionDirConcurrent` (amazonq.go:501-606):
like the Gemini pipeline but with an existence pre-check on the directory
(missing directory is an empty ok result) and the `isAmazonQFile` inclusion
rule. -/
def amazonqCollectFromSessionDirConcurrent (fs : FileSystem) (ctxErr : Option GoError)
    (now : Int) (cfg : CLIToolConfig) : Except GoError (List SessionData) :=
  match expandPath fs cfg.sessionDir with
  | .error _ => .error (.other "failed to expand session directory path")
  | .ok sessionDirPath =>
    match fs.stat sessionDirPath with
    | none => .ok []
    | some _ =>
      let filePaths := (fs.walkFiles sessionDirPath).filter isAmazonQFile
      if filePaths.length = 0 then .ok []
      else
        match ctxErr with
        | some e => .error e
        | none => .ok (sessionsFromPaths (amazonqParseSessionFileSafe fs now) filePaths)

/-- The session `collectFromAWSConfig` builds for one AWS config file
(amazonq.go:778-800). -/
def amazonqAWSConfigSession (expandedPath : String) (data : String) (now : Int) :
    SessionData :=
  let base := filepathBase expandedPath
  { id := "amazonq-aws-config-" ++ base
    source := .amazonQ
    timestamp := now
    title := "AWS Configuration: " ++ base
    messages := [{ id := "aws-config-" ++ base, role := "system", content := data,
                   timestamp := now,
                   metadata := [("source_type", "aws_config"),
                                ("config_file", expandedPath)] }]
    metadata := [("source_type", "aws_config"), ("config_path", expandedPath)] }

/-- The loop of `AmazonQCollector.collectFromAWSConfig` (amazonq.go:746-806):
a context check per path; a path that fails to expand, does not exist or
cannot be read is skipped. -/
def amazonqAWSLoop (fs : FileSystem) (ctxErr : Option GoError) (now : Int) :
    List String → Except GoError (List SessionData)
  | [] => .ok []
  | awsPath :: rest =>
    match ctxErr with
    | some e => .error e
    | none =>
      let contribution : List SessionData :=
        match expandPath fs awsPath with
        | .error _ => []
        | .ok expandedPath =>
          match fs.stat expandedPath with
          | none => []
          | some _ =>
            match fs.readFile expandedPath with
            | none => []
            | some data => [amazonqAWSConfigSession expandedPath data now]
      match amazonqAWSLoop fs ctxErr now rest with
      | .error e => .error e
      | .ok sessions => .ok (contribution ++ sessions)

/-- `AmazonQCollector.collectFromAWSConfig` over its fixed path list. -/
def amazonqCollectFromAWSConfig (fs : FileSystem) (ctxErr : Option GoError)
    (now : Int) : Except GoError (List SessionData) :=
  amazonqAWSLoop fs ctxErr now
    ["~/.aws/config", "~/.aws/credentials", "~/.amazon-q/config",
     "~/.amazon-q/session.json"]

/-- `AmazonQCollector.generateDummyData` (amazonq.go:882-971): the Fallback
Generator, three fixed sessions with timestamps relative to `now`, each
tagged `source_type = amazon_q_dummy`. -/
def amazonqGenerateDummyData (now : Int) : List SessionData :=
  let hour : Int := 3600 * 1000000000
  let minute : Int := 60 * 1000000000
  [{ id := "amazonq-dummy-1"
     source := .amazonQ
     timestamp := now - 24 * hour
     title := "AWS EC2 Instance Management"
     messages :=
       [{ id := "amazonq-dummy-1-user", role := "user",
          content := "How do I create an EC2 instance with auto-scaling?",
          timestamp := now - 24 * hour,
          metadata := [("service", "ec2"), ("region", "us-west-2")] },
        { id := "amazonq-dummy-1-assistant", role := "assistant",
          content := "To create an EC2 instance with auto-scaling, you need to: 1) Create a launch template 2) Create an auto-scaling group 3) Configure scaling policies...",
          timestamp := now - 24 * hour + minute,
          metadata := [("service", "ec2"), ("region", "us-west-2")] }]
     metadata := [("service", "ec2"), ("region", "us-west-2"),
                  ("source_type", "amazon_q_dummy"), ("user_id", "demo-user")] },
   { id := "amazonq-dummy-2"
     source := .amazonQ
     timestamp := now - 12 * hour
     title := "S3 Bucket Security Configuration"
     messages :=
       [{ id := "amazonq-dummy-2-user", role := "user",
          content := "What are the best practices for securing S3 buckets?",
          timestamp := now - 12 * hour,
          metadata := [("service", "s3"), ("region", "us-east-1")] },
        { id := "amazonq-dummy-2-assistant", role := "assistant",
          content := "Here are the key S3 security best practices: 1) Enable versioning 2) Configure bucket policies 3) Use IAM roles 4) Enable access logging...",
          timestamp := now - 12 * hour + minute,
          metadata := [("service", "s3"), ("region", "us-east-1")] }]
     metadata := [("service", "s3"), ("region", "us-east-1"),
                  ("source_type", "amazon_q_dummy"), ("user_id", "demo-user")] },
   { id := "amazonq-dummy-3"
     source := .amazonQ
     timestamp := now - 6 * hour
     title := "Lambda Function Optimization"
     messages :=
       [{ id := "amazonq-dummy-3-user", role := "user",
          content := "How can I optimize my Lambda function for better performance?",
          timestamp := now - 6 * hour,
          metadata := [("service", "lambda"), ("region", "eu-west-1")] },
        { id := "amazonq-dummy-3-assistant", role := "assistant",
          content := "To optimize Lambda performance: 1) Right-size memory allocation 2) Minimize cold starts 3) Use connection pooling 4) Optimize code and dependencies...",
          timestamp := now - 6 * hour + minute,
          metadata := [("service", "lambda"), ("region", "eu-west-1")] }]
     metadata := [("service", "lambda"), ("region", "eu-west-1"),
                  ("source_type", "amazon_q_dummy"), ("user_id", "demo-user")] }]

/-! ## The per-source `Collect` entry points -/

/-- `ImprovedGeminiCLICollector.validateConfigDirectory` (part_004:198-209). -/
def geminiValidateConfigDirectory (fs : FileSystem) (cfg : CLIToolConfig) :
    Except GoError Unit :=
  match expandPath fs cfg.configDir with
  | .error _ => .error (.other "failed to expand config directory path")
  | .ok configDir =>
    match fs.stat configDir with
    | none => .error (.other ("gemini CLI config directory does not exist: " ++ configDir))
    | some _ => .ok ()

/-- `AmazonQCollector.validateConfigDirectory` (amazonq.go:254-265). -/
def amazonqValidateConfigDirectory (fs : FileSystem) (cfg : CLIToolConfig) :
    Except GoError Unit :=
  match expandPath fs cfg.configDir with
  | .error _ => .error (.other "failed to expand config directory path")
  | .ok configDir =>
    match fs.stat configDir with
    | none => .error (.other ("Amazon Q CLI config directory does not exist: " ++ configDir))
    | some _ => .ok ()

/-- The record contribution of one collection-strategy goroutine as
`Collect` merges it: an error is appended to the warned error slice and
contributes no records. -/
def branchSessions (r : Except GoError (List SessionData)) : List SessionData :=
  match r with
  | .ok sessions => sessions
  | .error _ => []

/-- `ImprovedGeminiCLICollector.Collect` (part_004:123-195).  A nil request
is an error; a failed config-directory validation is an error; each
strategy's error (a cancelled context's included) is demoted to a warning
and contributes no records; the merged set is date-filtered and returned
with a nil error. -/
def geminiCollect (fs : FileSystem) (cfg : CLIToolConfig) (ctxErr : Option GoError)
    (now : Int) (collectConfig : Option CollectionConfig) :
    Except GoError (List SessionData) :=
  match collectConfig with
  | none => .error (.other "collection config is nil")
  | some cc =>
    match geminiValidateConfigDirectory fs cfg with
    | .error _ => .error (.other "config directory validation failed")
    | .ok _ =>
      let histSessions :=
        if cfg.historyFile ≠ "" then
          branchSessions (geminiCollectFromHistoryWithRetry fs ctxErr now cfg)
        else []
      let dirSessions :=
        if cfg.sessionDir ≠ "" then
          branchSessions (geminiCollectFromSessionDirConcurrent fs ctxErr now cfg)
        else []
      let allSessions := histSessions ++ dirSessions
      .ok (geminiFilterByDateRange allSessions cc.dateRange)

/-- The merged (pre-fallback, pre-filter) record set of
`AmazonQCollector.Collect`'s three goroutines. -/
def amazonqMergedSessions (fs : FileSystem) (cfg : CLIToolConfig)
    (ctxErr : Option GoError) (now : Int) : List SessionData :=
  let histSessions :=
    if cfg.historyFile ≠ "" then
      branchSessions (amazonqCollectFromHistoryWithRetry fs ctxErr now cfg)
    else []
  let dirSessions :=
    if cfg.sessionDir ≠ "" then
      branchSessions (amazonqCollectFromSessionDirConcurrent fs ctxErr now cfg)
    else []
  let awsSessions := branchSessions (amazonqCollectFromAWSConfig fs ctxErr now)
  histSessions ++ dirSessions ++ awsSessions

/-- `AmazonQCollector.Collect` (amazonq.go:126-220).  A nil request is an
error; a missing config directory returns the dummy data immediately with a
nil error; strategy errors (a cancelled context's included) are demoted to
warnings; an empty merged set is replaced by the dummy data; the result is
date-filtered and returned with a nil error. -/
def amazonqCollect (fs : FileSystem) (cfg : CLIToolConfig) (ctxErr : Option GoError)
    (now : Int) (collectConfig : Option CollectionConfig) :
    Except GoError (List SessionData) :=
  match collectConfig with
  | none => .error (.other "collection config is nil")
  | some cc =>
    match amazonqValidateConfigDirectory fs cfg with
    | .error _ => .ok (amazonqGenerateDummyData now)
    | .ok _ =>
      let merged := amazonqMergedSessions fs cfg ctxErr now
      let allSessions := if merged.length = 0 then amazonqGenerateDummyData now else merged
      .ok (amazonqFilterByDateRange allSessions cc.dateRange)

/-! ## The Claude Code collector -/

/-- `filepath.Match` restricted to `*`, `?` and literal characters (the only
shapes this repository's configs use; character classes are outside the
model). -/
def globMatch : List Char → List Char → Bool
  | [], [] => true
  | [], _ :: _ => false
  | '*' :: ps, ns =>
    globMatch ps ns ||
      (match ns with
       | [] => false
       | _ :: ns' => globMatch ('*' :: ps) ns')
  | '?' :: _, [] => false
  | '?' :: ps, _ :: ns => globMatch ps ns
  | _ :: _, [] => false
  | p :: ps, n :: ns => (p == n) && globMatch ps ns
termination_by pat name => (pat.length, name.length)

/-- `ClaudeCodeCollector.matchesIncludePattern` (claude.go:415-428). -/
def claudeMatchesIncludePattern (cfg : CLIToolConfig) (filePath : String) : Bool :=
  if cfg.includePatterns.length = 0 then true
  else
    let fileName := filepathBase filePath
    cfg.includePatterns.any (fun pattern => globMatch pattern.toList fileName.toList)

/-- `ClaudeCodeCollector.matchesExcludePattern` (claude.go:431-444). -/
def claudeMatchesExcludePattern (cfg : CLIToolConfig) (filePath : String) : Bool :=
  if cfg.excludePatterns.length = 0 then false
  else
    let fileName := filepathBase filePath
    cfg.excludePatterns.any (fun pattern => globMatch pattern.toList fileName.toList)

/-- `fmt.Sprintf("%v", _)` on a JSON-decoded `interface{}` value, as
`parseSessionMap` applies it to non-string metadata values.  Composite
values are abbreviated; no claim inspects them. -/
def jsonToGoString : Json → String
  | .str s => s
  | .num n => toString n
  | .bool b => if b then "true" else "false"
  | .null => "<nil>"
  | .arr _ => "[...]"
  | .obj _ => "map[...]"

/-- Lookup in a JSON object used as a `map[string]interface{}`. -/
def jsonLookup (fields : List (String × Json)) (k : String) : Option Json :=
  (fields.find? (fun f => f.1 = k)).map (fun f => f.2)

/-- `time.Time.UnixNano()` for the `Int` model. -/
def goUnixNano (t : Int) : Int := t - 62135596800 * 1000000000

/-- `ClaudeCodeCollector.parseMessage` (claude.go:340-381). -/
def claudeParseMessage (msgMap : List (String × Json)) (index : Nat) (now : Int) :
    Message :=
  let id :=
    match jsonLookup msgMap "id" with
    | some (.str s) => s
    | _ => "msg-" ++ toString (index + 1)
  let role :=
    match jsonLookup msgMap "role" with
    | some (.str s) => s
    | _ =>
      match jsonLookup msgMap "sender" with
      | some (.str s) => s
      | _ => "unknown"
  let content :=
    match jsonLookup msgMap "content" with
    | some (.str s) => s
    | _ =>
      match jsonLookup msgMap "text" with
      | some (.str s) => s
      | _ =>
        match jsonLookup msgMap "body" with
        | some (.str s) => s
        | _ => ""
  let ts0 :=
    match jsonLookup msgMap "timestamp" with
    | some (.str s) => (parseRFC3339 s).getD 0
    | _ => 0
  { id := id, role := role, content := content,
    timestamp := if ts0 = 0 then now else ts0, metadata := [] }

/-- `ClaudeCodeCollector.parseSessionMap` (claude.go:277-337). -/
def claudeParseSessionMap (sessionMap : List (String × Json)) (now : Int) :
    SessionData :=
  let id :=
    match jsonLookup sessionMap "id" with
    | some (.str s) => s
    | _ => "claude-session-" ++ toString (goUnixNano now)
  let ts0 :=
    match jsonLookup sessionMap "timestamp" with
    | some (.str s) => (parseRFC3339 s).getD 0
    | _ =>
      match jsonLookup sessionMap "created_at" with
      | some (.str s) => (parseRFC3339 s).getD 0
      | _ => 0
  let title :=
    match jsonLookup sessionMap "title" with
    | some (.str s) => s
    | _ =>
      match jsonLookup sessionMap "name" with
      | some (.str s) => s
      | _ => ""
  let messages :=
    match jsonLookup sessionMap "messages" with
    | some (.arr elems) =>
      (elems.enum.filterMap (fun x =>
        match x.2 with
        | .obj msgMap => some (claudeParseMessage msgMap x.1 now)
        | _ => none))
    | _ => []
  let metadata :=
    match jsonLookup sessionMap "metadata" with
    | some (.obj m) => m.map (fun kv => (kv.1, jsonToGoString kv.2))
    | _ => []
  { id := id
    source := .claudeCode
    timestamp := if ts0 = 0 then now else ts0
    title := title
    messages := messages
    metadata := metadata }

/-- `ClaudeCodeCollector.parseHistoryData` (claude.go:224-257): sessions are
read from the `sessions` key and then from each of the alternative keys
`conversations`, `chats`, `history`, `data`; only array values of object
elements contribute. -/
def claudeParseHistoryData (historyData : List (String × Json)) (now : Int) :
    List SessionData :=
  let fromKey : String → List SessionData := fun key =>
    match jsonLookup historyData key with
    | some (.arr elems) =>
      elems.filterMap (fun item =>
        match item with
        | .obj itemMap => some (claudeParseSessionMap itemMap now)
        | _ => none)
    | _ => []
  fromKey "sessions" ++ fromKey "conversations" ++ fromKey "chats" ++
    fromKey "history" ++ fromKey "data"

/-- `ClaudeCodeCollector.parseTextSession` (claude.go:384-412). -/
def claudeParseTextSession (fs : FileSystem) (filePath content : String)
    (now : Int) : SessionData :=
  let ts :=
    match fs.stat filePath with
    | some info => info.modTime
    | none => now
  { id := "claude-text-session-" ++ toString (goUnixNano now)
    source := .claudeCode
    timestamp := ts
    title := filepathBase filePath
    messages := [{ id := "msg-1", role := "content", content := content,
                   timestamp := ts, metadata := [] }]
    metadata := [("file_path", filePath), ("file_type", "text")] }

/-- `ClaudeCodeCollector.parseSessionFile` (claude.go:260-274): an unreadable
file is an error; content that does not unmarshal into a JSON object map
degrades to a text session. -/
def claudeParseSessionFile (fs : FileSystem) (filePath : String) (now : Int) :
    Except GoError SessionData :=
  match fs.readFile filePath with
  | none => .error (.other "failed to read file")
  | some data =>
    match jsonUnmarshalVal data with
    | some (.obj fields) => .ok (claudeParseSessionMap fields now)
    | some .null => .ok (claudeParseSessionMap [] now)
    | _ => .ok (claudeParseTextSession fs filePath data now)

/-- `ClaudeCodeCollector.collectFromHistory` (claude.go:117-158). -/
def claudeCollectFromHistory (fs : FileSystem) (ctxErr : Option GoError)
    (now : Int) (cfg : CLIToolConfig) : Except GoError (List SessionData) :=
  match ctxErr with
  | some e => .error e
  | none =>
    match expandPath fs cfg.historyFile with
    | .error _ => .error (.other "failed to expand history file path")
    | .ok historyPath =>
      match fs.stat historyPath with
      | none => .error (.other ("history file does not exist: " ++ historyPath))
      | some _ =>
        match fs.readFile historyPath with
        | none => .error (.other "failed to read history file")
        | some data =>
          match jsonUnmarshalVal data with
          | some (.obj fields) => .ok (claudeParseHistoryData fields now)
          | some .null => .ok (claudeParseHistoryData [] now)
          | _ => .error (.other "failed to parse history file JSON")

/-- `ClaudeCodeCollector.collectFromSessionDir` (claude.go:161-221): a
missing directory is an error; a cancelled context aborts the walk with a
wrapped (non-verbatim) error; files passing the include/exclude patterns
are parsed, and a file that fails to parse is skipped. -/
def claudeCollectFromSessionDir (fs : FileSystem) (ctxErr : Option GoError)
    (now : Int) (cfg : CLIToolConfig) : Except GoError (List SessionData) :=
  match expandPath fs cfg.sessionDir with
  | .error _ => .error (.other "failed to expand session directory path")
  | .ok sessionDir =>
    match fs.stat sessionDir with
    | none => .error (.other ("session directory does not exist: " ++ sessionDir))
    | some _ =>
      match ctxErr with
      | some _ => .error (.other "failed to walk session directory: context done")
      | none =>
        .ok (((fs.walkFiles sessionDir).filter (fun path =>
            claudeMatchesIncludePattern cfg path &&
              !(claudeMatchesExcludePattern cfg path))).filterMap
          (fun path => (claudeParseSessionFile fs path now).toOption))

/-- `ClaudeCodeCollector.Collect` (claude.go:28-84).  The context is checked
first and its error returned verbatim; a missing config directory is an
error; each strategy's error is demoted to a console warning; **there is no
nil-request check**, and the `collectConfig.DateRange` access at the end
dereferences a nil request — a runtime panic, modelled as
`GoError.nilPanic`. -/
def claudeCollect (fs : FileSystem) (cfg : CLIToolConfig) (ctxErr : Option GoError)
    (now : Int) (collectConfig : Option CollectionConfig) :
    Except GoError (List SessionData) :=
  match ctxErr with
  | some e => .error e
  | none =>
    match expandPath fs cfg.configDir with
    | .error _ => .error (.other "failed to expand config directory path")
    | .ok configDir =>
      match fs.stat configDir with
      | none => .error (.other ("Claude Code config directory does not exist: " ++ configDir))
      | some _ =>
        let histSessions :=
          if cfg.historyFile ≠ "" then
            branchSessions (claudeCollectFromHistory fs ctxErr now cfg)
          else []
        let dirSessions :=
          if cfg.sessionDir ≠ "" then
            branchSessions (claudeCollectFromSessionDir fs ctxErr now cfg)
          else []
        let sessions := histSessions ++ dirSessions
        match collectConfig with
        | none => .error .nilPanic
        | some cc => .ok (claudeFilterByDateRange sessions cc.dateRange)

/-! ## The top-level orchestrator -/

/-- `pkg/models.CollectionResult`.  `duration` is omitted: this
`CollectAllSources` never sets it. -/
structure CollectionResult where
  sessions : List SessionData
  totalCount : Nat
  sources : List CollectionSource
  collectedAt : Int
  errors : List String
deriving DecidableEq, Repr

/-- The display name of a source (`pkg/models` constants). -/
def sourceName : CollectionSource → String
  | .claudeCode => "claude_code"
  | .geminiCLI => "gemini_cli"
  | .amazonQ => "amazon_q"

/-- A collector as the orchestrator uses one: its `Collect` method applied
to the shared request (filesystem, context and clock already closed over by
the constructor's instantiation). -/
abbrev CollectFn := Option CollectionConfig → Except GoError (List SessionData)

/-- The per-source loop of `CollectAllSources` (claude.go file 2, lines
517-541), returning the appended contributions (sessions, attempted
sources, error strings) in iteration order.  `getCfg` is the `configs` map,
`getCtor` the registry consulted by `GetCollector`. -/
def collectAllLoop (getCfg : CollectionSource → Option CLIToolConfig)
    (getCtor : CollectionSource → Option (CLIToolConfig → CollectFn))
    (collectionConfig : CollectionConfig) :
    List CollectionSource → List SessionData × List CollectionSource × List String
  | [] => ([], [], [])
  | source :: rest =>
    let tail := collectAllLoop getCfg getCtor collectionConfig rest
    match getCfg source with
    | none =>
      (tail.1, tail.2.1, ("no configuration for source " ++ sourceName source) :: tail.2.2)
    | some config =>
      match getCtor source with
      | none =>
        (tail.1, tail.2.1,
          ("failed to create collector for source " ++ sourceName source) :: tail.2.2)
      | some constructor =>
        match constructor config (some collectionConfig) with
        | .error _ =>
          (tail.1, tail.2.1,
            ("failed to collect from source " ++ sourceName source) :: tail.2.2)
        | .ok sessions => (sessions ++ tail.1, source :: tail.2.1, tail.2.2)

/-- `CollectAllSources` (claude.go file 2, lines 509-545): per-source
failures become error strings, the rest is merged, `TotalCount` is the
merged length, and the Go-level error is always nil (the second component). -/
def collectAllSources (getCfg : CollectionSource → Option CLIToolConfig)
    (getCtor : CollectionSource → Option (CLIToolConfig → CollectFn))
    (now : Int) (collectionConfig : CollectionConfig) :
    CollectionResult × Option GoError :=
  let contributions := collectAllLoop getCfg getCtor collectionConfig collectionConfig.sources
  ({ sessions := contributions.1
     totalCount := contributions.1.length
     sources := contributions.2.1
     collectedAt := now
     errors := contributions.2.2 }, none)

/-! ## Helper lemmas and concrete fixtures -/

/-- Whether a Go call returned a nil error. -/
def exceptOk {α : Type} : Except GoError α → Bool
  | .ok _ => true
  | .error _ => false

lemma exceptOk_false_iff {α : Type} (r : Except GoError α) :
    exceptOk r = false ↔ ∃ e, r = .error e := by
  cases r <;> simp [exceptOk]

lemma exceptOk_eq_false_of_error {α : Type} {r : Except GoError α} {e : GoError}
    (h : r = .error e) : exceptOk r = false := by
  subst h; rfl

/-- A filesystem with nothing in it. -/
def fsEmptyFS : FileSystem :=
  { stat := fun _ => none, readFile := fun _ => none,
    walkFiles := fun _ => [], homeDir := none }

/-- A request with no sources, no date range and no flags. -/
def emptyRequest : CollectionConfig :=
  { sources := [], includeFiles := false, includeCommands := false,
    dateRange := none, outputPath := "", template := "" }

/-- A filesystem holding one single-line plain-text history file at `/h`. -/
def fsOneLineHistory : FileSystem :=
  { stat := fun p => if p = "/h" then some { size := 5, isDir := false, modTime := 0 } else none,
    readFile := fun p => if p = "/h" then some "hello" else none,
    walkFiles := fun _ => [], homeDir := none }

/-! ## C9 -/

/-- C9: `CollectAllSources` always returns a non-nil result with a nil
Go-level error and `TotalCount` equal to the number of merged records; and
whenever a source fails to resolve or collect (missing configuration,
unregistered source, or a collector error), exactly one error string is
prepended for it, it contributes no records and no attempted source, and
the remaining sources' collection is exactly what it would have been
anyway. -/
theorem c9_orchestrator_isolates_source_failures :
    (∀ (getCfg : CollectionSource → Option CLIToolConfig)
        (getCtor : CollectionSource → Option (CLIToolConfig → CollectFn))
        (now : Int) (cc : CollectionConfig),
        (collectAllSources getCfg getCtor now cc).2 = none ∧
          (collectAllSources getCfg getCtor now cc).1.totalCount =
            (collectAllSources getCfg getCtor now cc).1.sessions.length) ∧
    (∀ (getCfg : CollectionSource → Option CLIToolConfig)
        (getCtor : CollectionSource → Option (CLIToolConfig → CollectFn))
        (cc : CollectionConfig) (source : CollectionSource)
        (rest : List CollectionSource),
        (getCfg source = none ∨
          (∃ config, getCfg source = some config ∧ getCtor source = none) ∨
          (∃ config constructor e, getCfg source = some config ∧
            getCtor source = some constructor ∧
            constructor config (some cc) = .error e)) →
        ∃ msg,
          collectAllLoop getCfg getCtor cc (source :: rest) =
            ((collectAllLoop getCfg getCtor cc rest).1,
             (collectAllLoop getCfg getCtor cc rest).2.1,
             msg :: (collectAllLoop getCfg getCtor cc rest).2.2)) := by
  constructor
  · intro getCfg getCtor now cc
    exact ⟨rfl, rfl⟩
  · intro getCfg getCtor cc source rest h
    rcases h with h | ⟨config, hc, hr⟩ | ⟨config, constructor, e, hc, hr, he⟩
    · refine ⟨"no configuration for source " ++ sourceName source, ?_⟩
      simp [collectAllLoop, h]
    · refine ⟨"failed to create collector for source " ++ sourceName source, ?_⟩
      simp [collectAllLoop, hc, hr]
    · refine ⟨"failed to collect from source " ++ sourceName source, ?_⟩
      simp [collectAllLoop, hc, hr, he]

/-- Witness for C9: with an empty registry and no configs, the first of two
requested sources fails and the second's (also failing) processing still
happens, exactly as for the one-source list. -/
theorem c9_witness :
    ∃ msg,
      collectAllLoop (fun _ => none) (fun _ => none) emptyRequest
          (CollectionSource.amazonQ :: [CollectionSource.geminiCLI]) =
        ((collectAllLoop (fun _ => none) (fun _ => none) emptyRequest
            [CollectionSource.geminiCLI]).1,
         (collectAllLoop (fun _ => none) (fun _ => none) emptyRequest
            [CollectionSource.geminiCLI]).2.1,
         msg :: (collectAllLoop (fun _ => none) (fun _ => none) emptyRequest
            [CollectionSource.geminiCLI]).2.2) :=
  c9_orchestrator_isolates_source_failures.2 (fun _ => none) (fun _ => none)
    emptyRequest CollectionSource.amazonQ [CollectionSource.geminiCLI] (Or.inl rfl)

/-! ## C7 -/

lemma parseHistoryLoop_length_le
    (parseLine : String → Nat → Except GoError (Option SessionData))
    (ctxErr : Option GoError) :
    ∀ (lines : List String) (lineNum : Nat) (sessions : List SessionData),
      sessions.length < maxMessagesPerFile →
      ∀ out, parseHistoryLoop parseLine ctxErr lines lineNum sessions = .ok out →
        out.length ≤ maxMessagesPerFile := by
  intro lines
  induction lines with
  | nil =>
    intro lineNum sessions hlt out hout
    simp [parseHistoryLoop] at hout
    subst hout
    omega
  | cons rawLine rest ih =>
    intro lineNum sessions hlt out hout
    simp only [parseHistoryLoop] at hout
    cases ctxErr with
    | some e => exact absurd hout (by simp)
    | none =>
      by_cases hline : strTrim rawLine = ""
      · simp only [hline, if_pos rfl] at hout
        exact ih (lineNum + 1) sessions hlt out hout
      · simp only [if_neg hline] at hout
        cases hp : parseLine (strTrim rawLine) (lineNum + 1) with
        | error e =>
          rw [hp] at hout
          exact ih (lineNum + 1) sessions hlt out hout
        | ok osession =>
          rw [hp] at hout
          cases osession with
          | none => exact ih (lineNum + 1) sessions hlt out hout
          | some session =>
            simp only at hout
            by_cases hcap : maxMessagesPerFile ≤ (sessions ++ [session]).length
            · rw [if_pos hcap] at hout
              cases hout
              simp only [List.length_append, List.length_singleton]
              omega
            · rw [if_neg hcap] at hout
              exact ih (lineNum + 1) (sessions ++ [session]) (by omega) out hout

/-- C7: both streaming history parsers return at most `maxMessagesPerFile`
(10,000) records however many lines the file has, and once a parsed record
fills the cap the loop stops early, ignoring every remaining line. -/
theorem c7_streaming_parser_record_cap :
    (∀ (fs : FileSystem) (ctxErr : Option GoError) (now : Int) (path : String)
        (out : List SessionData),
        geminiParseHistoryFileStreaming fs ctxErr now path = .ok out →
          out.length ≤ maxMessagesPerFile) ∧
    (∀ (fs : FileSystem) (ctxErr : Option GoError) (now : Int) (path : String)
        (out : List SessionData),
        amazonqParseHistoryFileStreaming fs ctxErr now path = .ok out →
          out.length ≤ maxMessagesPerFile) ∧
    (∀ (parseLine : String → Nat → Except GoError (Option SessionData))
        (rawLine : String) (rest : List String) (lineNum : Nat)
        (sessions : List SessionData) (session : SessionData),
        strTrim rawLine ≠ "" →
        parseLine (strTrim rawLine) (lineNum + 1) = .ok (some session) →
        maxMessagesPerFile ≤ (sessions ++ [session]).length →
        parseHistoryLoop parseLine none (rawLine :: rest) lineNum sessions =
          .ok (sessions ++ [session])) := by
  refine ⟨?_, ?_, ?_⟩
  · intro fs ctxErr now path out h
    unfold geminiParseHistoryFileStreaming at h
    cases hr : fs.readFile path with
    | none => rw [hr] at h; exact absurd h (by simp)
    | some content =>
      rw [hr] at h
      exact parseHistoryLoop_length_le _ ctxErr _ 0 []
        (by simp [maxMessagesPerFile]) out h
  · intro fs ctxErr now path out h
    unfold amazonqParseHistoryFileStreaming at h
    cases hr : fs.readFile path with
    | none => rw [hr] at h; exact absurd h (by simp)
    | some content =>
      rw [hr] at h
      exact parseHistoryLoop_length_le _ ctxErr _ 0 []
        (by simp [maxMessagesPerFile]) out h
  · intro parseLine rawLine rest lineNum sessions session hne hp hcap
    simp only [parseHistoryLoop, if_neg hne, hp]
    rw [if_pos hcap]

/-- Witness for C7: a concrete one-line history file parses to a list within
the cap. -/
theorem c7_witness :
    (branchSessions (geminiParseHistoryFileStreaming fsOneLineHistory none 0 "/h")).length ≤
      maxMessagesPerFile :=
  c7_streaming_parser_record_cap.1 fsOneLineHistory none 0 "/h" _ (by rfl)

/-! ## C6 -/

/-- A filesystem whose only entry is a file just over the 100MB cap. -/
def fsOversized : FileSystem :=
  { stat := fun p =>
      if p = "/big" then some { size := maxFileSize + 1, isDir := false, modTime := 0 }
      else none,
    readFile := fun _ => none, walkFiles := fun _ => [], homeDir := none }

/-- A per-source config whose history file is the oversized `/big`. -/
def cfgOversizedHistory : CLIToolConfig :=
  { configDir := "", historyFile := "/big", sessionDir := "",
    includePatterns := [], excludePatterns := [] }

/-- C6: a file whose stat size exceeds the 100MB cap is rejected with an
error by both collectors' session-file parsers and history collectors,
regardless of its content, and contributes zero records to the
session-directory pipeline's output. -/
theorem c6_size_cap_rejects_oversized_files :
    ∀ (fs : FileSystem) (now : Int) (path : String) (info : FileInfo),
      fs.stat path = some info → maxFileSize < info.size →
      exceptOk (geminiParseSessionFileSafe fs now path) = false ∧
      exceptOk (amazonqParseSessionFileSafe fs now path) = false ∧
      (∀ (ctxErr : Option GoError) (cfg : CLIToolConfig),
          expandPath fs cfg.historyFile = .ok path →
          exceptOk (geminiCollectFromHistoryWithRetry fs ctxErr now cfg) = false ∧
          exceptOk (amazonqCollectFromHistoryWithRetry fs ctxErr now cfg) = false) ∧
      (∀ (paths1 paths2 : List String),
          sessionsFromPaths (geminiParseSessionFileSafe fs now) (paths1 ++ path :: paths2) =
            sessionsFromPaths (geminiParseSessionFileSafe fs now) (paths1 ++ paths2) ∧
          sessionsFromPaths (amazonqParseSessionFileSafe fs now) (paths1 ++ path :: paths2) =
            sessionsFromPaths (amazonqParseSessionFileSafe fs now) (paths1 ++ paths2)) := by
  intro fs now path info hstat hsize
  have hg : geminiParseSessionFileSafe fs now path = .error (.other "file too large") := by
    simp [geminiParseSessionFileSafe, hstat, hsize]
  have ha : amazonqParseSessionFileSafe fs now path = .error (.other "file too large") := by
    simp [amazonqParseSessionFileSafe, hstat, hsize]
  refine ⟨exceptOk_eq_false_of_error hg, exceptOk_eq_false_of_error ha, ?_, ?_⟩
  · intro ctxErr cfg hexp
    constructor
    · have : geminiCollectFromHistoryWithRetry fs ctxErr now cfg =
          .error (.other "history file too large") := by
        simp [geminiCollectFromHistoryWithRetry, hexp, hstat, hsize]
      exact exceptOk_eq_false_of_error this
    · have : amazonqCollectFromHistoryWithRetry fs ctxErr now cfg =
          .error (.other "history file too large") := by
        simp [amazonqCollectFromHistoryWithRetry, hexp, hstat, hsize]
      exact exceptOk_eq_false_of_error this
  · intro paths1 paths2
    constructor
    · simp [sessionsFromPaths, List.filterMap_append, List.filterMap_cons, hg,
        Except.toOption]
    · simp [sessionsFromPaths, List.filterMap_append, List.filterMap_cons, ha,
        Except.toOption]

/-- Witness for C6: the concrete oversized file `/big` is rejected by the
session-file parser and makes the history collector fail. -/
theorem c6_witness :
    exceptOk (geminiParseSessionFileSafe fsOversized 0 "/big") = false ∧
    exceptOk (amazonqCollectFromHistoryWithRetry fsOversized none 0 cfgOversizedHistory) = false := by
  have h := c6_size_cap_rejects_oversized_files fsOversized 0 "/big"
    { size := maxFileSize + 1, isDir := false, modTime := 0 } (by rfl)
    (lt_add_one maxFileSize)
  exact ⟨h.1, (h.2.2.1 none cfgOversizedHistory (by rfl)).2⟩

/-! ## C8 -/

/-- A per-source config pointing at `/cfg` with no history file and no
session directory. -/
def cfgDirOnly : CLIToolConfig :=
  { configDir := "/cfg", historyFile := "", sessionDir := "",
    includePatterns := [], excludePatterns := [] }

/-- A filesystem holding only the directory `/cfg`. -/
def fsCfgDirOnly : FileSystem :=
  { stat := fun p => if p = "/cfg" then some { size := 0, isDir := true, modTime := 0 } else none,
    readFile := fun _ => none, walkFiles := fun _ => [],
    homeDir := some "/home/u" }

/-- C8 (amended): the Gemini and Amazon Q collectors fail a nil request with
the invalid-request error `collection config is nil` and produce no records;
the Claude collector has no nil-request check — once its config-directory
check passes, the nil request is dereferenced at the date-range access, a
runtime panic rather than an error return. -/
theorem c8_nil_request_validation :
    (∀ (fs : FileSystem) (cfg : CLIToolConfig) (ctxErr : Option GoError) (now : Int),
        geminiCollect fs cfg ctxErr now none = .error (.other "collection config is nil")) ∧
    (∀ (fs : FileSystem) (cfg : CLIToolConfig) (ctxErr : Option GoError) (now : Int),
        amazonqCollect fs cfg ctxErr now none = .error (.other "collection config is nil")) ∧
    (∀ (fs : FileSystem) (cfg : CLIToolConfig) (now : Int) (configDir : String)
        (info : FileInfo),
        expandPath fs cfg.configDir = .ok configDir →
        fs.stat configDir = some info →
        claudeCollect fs cfg none now none = .error .nilPanic) := by
  refine ⟨fun _ _ _ _ => rfl, fun _ _ _ _ => rfl, ?_⟩
  intro fs cfg now configDir info hexp hstat
  simp [claudeCollect, hexp, hstat]

/-- Witness for C8: concrete nil-request calls for each behaviour. -/
theorem c8_witness :
    geminiCollect fsEmptyFS cfgDirOnly none 0 none =
      .error (.other "collection config is nil") ∧
    claudeCollect fsCfgDirOnly cfgDirOnly none 0 none = .error .nilPanic :=
  ⟨c8_nil_request_validation.1 fsEmptyFS cfgDirOnly none 0,
   c8_nil_request_validation.2.2 fsCfgDirOnly cfgDirOnly 0 "/cfg"
     { size := 0, isDir := true, modTime := 0 } (by rfl) (by rfl)⟩

/-- Counterexample for C8 as stated: with an existing config directory, the
Claude collector's `Collect` applied to a nil request does not return an
invalid-request error — it dereferences the nil request (a panic, modelled
by `nilPanic`). -/
theorem c8_counterexample :
    claudeCollect fsCfgDirOnly cfgDirOnly none 0 none = .error GoError.nilPanic ∧
    claudeCollect fsCfgDirOnly cfgDirOnly none 0 none ≠
      .error (.other "collection config is nil") := by
  constructor
  · rfl
  · intro h
    rw [show claudeCollect fsCfgDirOnly cfgDirOnly none 0 none =
        .error GoError.nilPanic from rfl] at h
    simp at h

/-! ## C2 -/

/-- Every dummy record of the Fallback Generator is marked synthetic through
its `source_type = amazon_q_dummy` metadata entry. -/
lemma amazonqDummyData_marked_synthetic (now : Int) :
    ∀ s ∈ amazonqGenerateDummyData now,
      ("source_type", "amazon_q_dummy") ∈ s.metadata := by
  intro s hs
  simp [amazonqGenerateDummyData] at hs
  rcases hs with h | h | h <;> subst h <;> simp

/-- C2 (amended): only the Amazon Q collector degrades a missing config
directory to the Fallback Generator's records (all marked synthetic) with a
nil error; the Gemini and Claude collectors return a non-nil error for a
missing config directory. -/
theorem c2_missing_config_dir_fallback :
    (∀ (fs : FileSystem) (cfg : CLIToolConfig) (ctxErr : Option GoError) (now : Int)
        (cc : CollectionConfig) (configDir : String),
        expandPath fs cfg.configDir = .ok configDir →
        fs.stat configDir = none →
        amazonqCollect fs cfg ctxErr now (some cc) = .ok (amazonqGenerateDummyData now)) ∧
    (∀ (fs : FileSystem) (cfg : CLIToolConfig) (ctxErr : Option GoError) (now : Int)
        (cc : CollectionConfig) (configDir : String),
        expandPath fs cfg.configDir = .ok configDir →
        fs.stat configDir = none →
        exceptOk (geminiCollect fs cfg ctxErr now (some cc)) = false) ∧
    (∀ (fs : FileSystem) (cfg : CLIToolConfig) (now : Int)
        (cc : CollectionConfig) (configDir : String),
        expandPath fs cfg.configDir = .ok configDir →
        fs.stat configDir = none →
        exceptOk (claudeCollect fs cfg none now (some cc)) = false) := by
  refine ⟨?_, ?_, ?_⟩
  · intro fs cfg ctxErr now cc configDir hexp hstat
    simp [amazonqCollect, amazonqValidateConfigDirectory, hexp, hstat]
  · intro fs cfg ctxErr now cc configDir hexp hstat
    simp [geminiCollect, geminiValidateConfigDirectory, hexp, hstat, exceptOk]
  · intro fs cfg now cc configDir hexp hstat
    simp [claudeCollect, hexp, hstat, exceptOk]

/-- Witness for C2: against an empty filesystem, Amazon Q returns the dummy
records with a nil error while Gemini returns an error. -/
theorem c2_witness :
    amazonqCollect fsEmptyFS cfgDirOnly none 0 (some emptyRequest) =
      .ok (amazonqGenerateDummyData 0) ∧
    exceptOk (geminiCollect fsEmptyFS cfgDirOnly none 0 (some emptyRequest)) = false :=
  ⟨c2_missing_config_dir_fallback.1 fsEmptyFS cfgDirOnly none 0 emptyRequest "/cfg"
      (by rfl) (by rfl),
   c2_missing_config_dir_fallback.2.1 fsEmptyFS cfgDirOnly none 0 emptyRequest "/cfg"
      (by rfl) (by rfl)⟩

/-- Counterexample for C2 as stated: the Gemini collector with a missing
config directory returns a non-nil error instead of logging a warning and
returning fallback records. -/
theorem c2_counterexample :
    geminiCollect fsEmptyFS cfgDirOnly none 0 (some emptyRequest) =
      .error (.other "config directory validation failed") := by
  rfl

/-! ## C3 -/

/-- C3 (amended): when the merged record set is empty after all strategies,
the Amazon Q collector invokes the Fallback Generator — so with no date
range the returned set is the non-empty dummy data, every record of which is
marked synthetic — while the Gemini collector returns the empty set with no
fallback. -/
theorem c3_empty_merge_fallback :
    (∀ (fs : FileSystem) (cfg : CLIToolConfig) (ctxErr : Option GoError) (now : Int)
        (cc : CollectionConfig) (configDir : String) (info : FileInfo),
        expandPath fs cfg.configDir = .ok configDir →
        fs.stat configDir = some info →
        amazonqMergedSessions fs cfg ctxErr now = [] →
        cc.dateRange = none →
        amazonqCollect fs cfg ctxErr now (some cc) = .ok (amazonqGenerateDummyData now) ∧
        amazonqGenerateDummyData now ≠ [] ∧
        (∀ s ∈ amazonqGenerateDummyData now,
          ("source_type", "amazon_q_dummy") ∈ s.metadata)) ∧
    (∀ (fs : FileSystem) (cfg : CLIToolConfig) (ctxErr : Option GoError) (now : Int)
        (cc : CollectionConfig) (configDir : String) (info : FileInfo),
        expandPath fs cfg.configDir = .ok configDir →
        fs.stat configDir = some info →
        cfg.historyFile = "" → cfg.sessionDir = "" →
        cc.dateRange = none →
        geminiCollect fs cfg ctxErr now (some cc) = .ok []) := by
  constructor
  · intro fs cfg ctxErr now cc configDir info hexp hstat hmerged hdr
    refine ⟨?_, by simp [amazonqGenerateDummyData], amazonqDummyData_marked_synthetic now⟩
    simp [amazonqCollect, amazonqValidateConfigDirectory, hexp, hstat, hmerged, hdr,
      amazonqFilterByDateRange]
  · intro fs cfg ctxErr now cc configDir info hexp hstat hh hs hdr
    simp [geminiCollect, geminiValidateConfigDirectory, hexp, hstat, hh, hs, hdr,
      geminiFilterByDateRange]

/-- Witness for C3: with only the config directory present, Amazon Q's
merged set is empty and the dummy data comes back. -/
theorem c3_witness :
    amazonqCollect fsCfgDirOnly cfgDirOnly none 0 (some emptyRequest) =
      .ok (amazonqGenerateDummyData 0) ∧
    amazonqGenerateDummyData 0 ≠ [] :=
  let h := c3_empty_merge_fallback.1 fsCfgDirOnly cfgDirOnly none 0 emptyRequest "/cfg"
    { size := 0, isDir := true, modTime := 0 } (by rfl) (by rfl) (by rfl) (by rfl)
  ⟨h.1, h.2.1⟩

/-- Counterexample for C3 as stated: the Gemini collector with an existing
config directory and no collectable data returns the **empty** set — no
Fallback Generator is invoked, so the claim's "for every per-source
collector ... the returned set is non-empty" fails. -/
theorem c3_counterexample :
    geminiCollect fsCfgDirOnly cfgDirOnly none 0 (some emptyRequest) = .ok [] := by
  rfl

/-! ## C1 -/

/-- The per-source config of the repository's own cancellation test
(`TestContextCancellation`, gemini_test.go:380-408): an existing config
directory and a configured history file. -/
def cfgCancelHistory : CLIToolConfig :=
  { configDir := "/test", historyFile := "/test/history.jsonl", sessionDir := "",
    includePatterns := [], excludePatterns := [] }

/-- The filesystem of that test: the config directory and a small one-line
JSON history file both exist. -/
def fsCancelHistory : FileSystem :=
  { stat := fun p =>
      if p = "/test" then some { size := 0, isDir := true, modTime := 0 }
      else if p = "/test/history.jsonl" then
        some { size := 50, isDir := false, modTime := 0 }
      else none,
    readFile := fun p =>
      if p = "/test/history.jsonl" then
        some "\x7b\"id\":\"t\",\"prompt\":\"p\",\"timestamp\":\"2024-01-01T10:00:00Z\"\x7d"
      else none,
    walkFiles := fun _ => [], homeDir := none }

/-- C1 evaluated at the failing input: with a context already cancelled, the
streaming line parser does return `context.Canceled` verbatim with no
records, but `Collect` itself demotes that error to a warning: the Gemini
`Collect` returns a **nil error and an empty record set**, and the Amazon Q
`Collect` returns a **nil error and the dummy records** — neither returns
the context's error as the claim (and the repository's own
`TestContextCancellation`) requires. -/
theorem c1_cancellation_not_propagated_by_collect :
    geminiParseHistoryFileStreaming fsCancelHistory (some .canceled) 0
        "/test/history.jsonl" = .error .canceled ∧
    geminiCollect fsCancelHistory cfgCancelHistory (some .canceled) 0
        (some emptyRequest) = .ok [] ∧
    amazonqCollect fsCancelHistory cfgCancelHistory (some .canceled) 0
        (some emptyRequest) = .ok (amazonqGenerateDummyData 0) :=
  ⟨rfl, rfl, rfl⟩

/-! ## C5 -/

/-- The JSON keys `AmazonQHistoryEntry` declares. -/
def amazonqEntryKeys : List String :=
  ["id", "conversation_id", "query", "response", "timestamp", "service",
   "region", "user_id", "session_type", "context", "metadata"]

lemma string_length_eq_zero_iff (s : String) : s.length = 0 ↔ s = "" := by
  cases s with
  | mk l =>
    cases l with
    | nil => simp [String.length]
    | cons c cs =>
      simp only [String.length]
      constructor
      · intro h; simp at h
      · intro h
        have hd : (String.mk (c :: cs)).data = ("" : String).data := by rw [h]
        simp at hd

lemma applyGeminiEntryField_unknown (e : GeminiHistoryEntry) (k : String) (v : Json)
    (hk : k ∉ geminiEntryKeys) : applyGeminiEntryField e k v = none := by
  simp only [geminiEntryKeys, List.mem_cons, List.not_mem_nil, or_false, not_or] at hk
  simp [applyGeminiEntryField, hk.1, hk.2.1, hk.2.2.1, hk.2.2.2.1, hk.2.2.2.2.1,
    hk.2.2.2.2.2.1, hk.2.2.2.2.2.2]

lemma applyAmazonQEntryField_unknown (e : AmazonQHistoryEntry) (k : String) (v : Json)
    (hk : k ∉ amazonqEntryKeys) : applyAmazonQEntryField e k v = some e := by
  simp only [amazonqEntryKeys, List.mem_cons, List.not_mem_nil, or_false, not_or] at hk
  simp [applyAmazonQEntryField, hk.1, hk.2.1, hk.2.2.1, hk.2.2.2.1, hk.2.2.2.2.1,
    hk.2.2.2.2.2.1, hk.2.2.2.2.2.2.1, hk.2.2.2.2.2.2.2.1, hk.2.2.2.2.2.2.2.2.1,
    hk.2.2.2.2.2.2.2.2.2.1, hk.2.2.2.2.2.2.2.2.2.2]

lemma decodeGeminiEntryFields_unknown :
    ∀ (fields : List (String × Json)) (e : GeminiHistoryEntry) (kv : String × Json),
      kv ∈ fields → kv.1 ∉ geminiEntryKeys → decodeGeminiEntryFields fields e = none := by
  intro fields
  induction fields with
  | nil => intro e kv h; simp at h
  | cons hd tl ih =>
    intro e kv hmem hk
    obtain ⟨k, v⟩ := hd
    rcases List.mem_cons.mp hmem with heq | htl
    · subst heq
      simp only [decodeGeminiEntryFields]
      rw [applyGeminiEntryField_unknown _ _ _ hk]
    · simp only [decodeGeminiEntryFields]
      cases happ : applyGeminiEntryField e k v with
      | none => rfl
      | some e2 => exact ih e2 kv htl hk

lemma decodeAmazonQEntryFields_skips_unknown (k : String) (hk : k ∉ amazonqEntryKeys)
    (v : Json) (rest : List (String × Json)) (e : AmazonQHistoryEntry) :
    decodeAmazonQEntryFields ((k, v) :: rest) e = decodeAmazonQEntryFields rest e := by
  simp only [decodeAmazonQEntryFields]
  rw [applyAmazonQEntryField_unknown _ _ _ hk]

/-- C5 (amended): for every non-empty line, both streaming line parsers
classify as the claim states — a line beginning with `{` is decoded
structurally and converted to a record with a synthesized user/assistant
pair for whichever of the prompt/query and response fields are present; any
other line becomes a one-message text record; a line whose structured
decode fails is skipped and the loop continues with the remaining lines —
but only the **Gemini** decoder rejects unknown fields; the Amazon Q
decoder silently skips them. -/
theorem c5_line_parser_classification :
    (∀ (line : String) (lineNum : Nat) (now : Int),
        strStartsWith line "\x7b" = false →
        geminiParseHistoryLine line lineNum now =
          .ok (geminiParseTextHistoryEntry line lineNum now) ∧
        amazonqParseHistoryLine line lineNum now =
          .ok (amazonqParseTextHistoryEntry line lineNum now)) ∧
    (∀ (line : String) (lineNum : Nat) (now : Int),
        strTrim line = line → line ≠ "" →
        ∃ s, geminiParseTextHistoryEntry line lineNum now = some s ∧
          s.messages.map (fun m => (m.role, m.content)) = [("user", line)]) ∧
    (∀ (line : String) (lineNum : Nat) (now : Int) (j : Json)
        (entry : GeminiHistoryEntry),
        strStartsWith line "\x7b" = true →
        jsonDecodeOne line = some j →
        decodeGeminiHistoryEntry j = some entry →
        geminiParseHistoryLine line lineNum now =
          .ok (some (geminiConvertHistoryEntryToSession entry lineNum now))) ∧
    (∀ (entry : GeminiHistoryEntry) (index : Nat) (now : Int),
        (geminiConvertHistoryEntryToSession entry index now).messages.map
            (fun m => (m.role, m.content)) =
          (if entry.prompt ≠ "" then [("user", entry.prompt)] else []) ++
            (if entry.response ≠ "" then [("assistant", entry.response)] else [])) ∧
    (∀ (line : String) (lineNum : Nat) (now : Int) (j : Json)
        (entry : AmazonQHistoryEntry),
        strStartsWith line "\x7b" = true →
        jsonDecodeOne line = some j →
        decodeAmazonQHistoryEntry j = some entry →
        amazonqParseHistoryLine line lineNum now =
          .ok (some (amazonqConvertHistoryEntryToSession entry lineNum now))) ∧
    (∀ (entry : AmazonQHistoryEntry) (index : Nat) (now : Int),
        (amazonqConvertHistoryEntryToSession entry index now).messages.map
            (fun m => (m.role, m.content)) =
          (if entry.query ≠ "" then [("user", entry.query)] else []) ++
            (if entry.response ≠ "" then [("assistant", entry.response)] else [])) ∧
    (∀ (line : String) (lineNum : Nat) (now : Int),
        strStartsWith line "\x7b" = true →
        (jsonDecodeOne line = none ∨
          (∃ j, jsonDecodeOne line = some j ∧ decodeGeminiHistoryEntry j = none)) →
        exceptOk (geminiParseHistoryLine line lineNum now) = false) ∧
    (∀ (fields : List (String × Json)) (e : GeminiHistoryEntry) (kv : String × Json),
        kv ∈ fields → kv.1 ∉ geminiEntryKeys →
        decodeGeminiEntryFields fields e = none) ∧
    (∀ (k : String), k ∉ amazonqEntryKeys → ∀ (v : Json) (rest : List (String × Json))
        (e : AmazonQHistoryEntry),
        decodeAmazonQEntryFields ((k, v) :: rest) e = decodeAmazonQEntryFields rest e) ∧
    (∀ (parseLine : String → Nat → Except GoError (Option SessionData))
        (rawLine : String) (rest : List String) (lineNum : Nat)
        (sessions : List SessionData) (e : GoError),
        strTrim rawLine ≠ "" →
        parseLine (strTrim rawLine) (lineNum + 1) = .error e →
        parseHistoryLoop parseLine none (rawLine :: rest) lineNum sessions =
          parseHistoryLoop parseLine none rest (lineNum + 1) sessions) := by
  refine ⟨?_, ?_, ?_, ?_, ?_, ?_, ?_, ?_, ?_, ?_⟩
  · intro line lineNum now h
    constructor <;> simp [geminiParseHistoryLine, amazonqParseHistoryLine, h]
  · intro line lineNum now htrim hne
    have hlen : ¬ (strTrim line).length = 0 := by
      rw [htrim, string_length_eq_zero_iff]
      exact hne
    refine ⟨SessionData.mk ("gemini-cli-text-" ++ toString lineNum) .geminiCLI now
      "Gemini CLI History Entry"
      [Message.mk ("gemini-cli-text-" ++ toString lineNum ++ "-user") "user" line now
        [("source_type", "gemini_cli_text")]]
      [("source_type", "gemini_cli_history"), ("entry_number", toString lineNum)], ?_, ?_⟩
    · simp [geminiParseTextHistoryEntry, hlen]
    · simp
  · intro line lineNum now j entry h hj hdec
    have hpj : geminiParseJSONHistoryEntry line lineNum now =
        .ok (geminiConvertHistoryEntryToSession entry lineNum now) := by
      simp [geminiParseJSONHistoryEntry, hj, hdec]
    simp [geminiParseHistoryLine, h, hpj, Except.map]
  · intro entry index now
    by_cases hp : entry.prompt = "" <;> by_cases hr : entry.response = "" <;>
      simp [geminiConvertHistoryEntryToSession, hp, hr]
  · intro line lineNum now j entry h hj hdec
    have hpj : amazonqParseJSONHistoryEntry line lineNum now =
        .ok (amazonqConvertHistoryEntryToSession entry lineNum now) := by
      simp [amazonqParseJSONHistoryEntry, hj, hdec]
    simp [amazonqParseHistoryLine, h, hpj, Except.map]
  · intro entry index now
    by_cases hp : entry.query = "" <;> by_cases hr : entry.response = "" <;>
      simp [amazonqConvertHistoryEntryToSession, hp, hr]
  · intro line lineNum now h hfail
    rcases hfail with hj | ⟨j, hj, hdec⟩
    · simp [geminiParseHistoryLine, h, geminiParseJSONHistoryEntry, hj, exceptOk,
        Except.map]
    · simp [geminiParseHistoryLine, h, geminiParseJSONHistoryEntry, hj, hdec, exceptOk,
        Except.map]
  · exact decodeGeminiEntryFields_unknown
  · exact fun k hk v rest e => decodeAmazonQEntryFields_skips_unknown k hk v rest e
  · intro parseLine rawLine rest lineNum sessions e hne hp
    simp only [parseHistoryLoop, if_neg hne, hp]

/-- A history line containing a field (`bogus`) unknown to both schemas. -/
def lineWithUnknownField : String :=
  "\x7b\"id\":\"a\",\"query\":\"q\",\"bogus\":\"z\"\x7d"

/-- Counterexample for C5 as stated: the Amazon Q line parser does **not**
use a strict decoder — the line with the unknown field `bogus` is accepted
and converted to a record instead of being rejected, logged and skipped. -/
theorem c5_counterexample :
    amazonqParseHistoryLine lineWithUnknownField 1 0 =
      .ok (some (amazonqConvertHistoryEntryToSession { id := "a", query := "q" } 1 0)) ∧
    exceptOk (geminiParseHistoryLine
      "\x7b\"id\":\"a\",\"prompt\":\"q\",\"bogus\":\"z\"\x7d" 1 0) = false := by
  exact ⟨rfl, rfl⟩

/-- Witness for C5: the classification theorem applied at concrete inputs —
a plain-text line, an unknown-field object for the strict Gemini decoder,
and the same for the lax Amazon Q decoder. -/
theorem c5_witness :
    geminiParseHistoryLine "hello" 3 7 = .ok (geminiParseTextHistoryEntry "hello" 3 7) ∧
    decodeGeminiEntryFields [("bogus", Json.str "z")] {} = none ∧
    decodeAmazonQEntryFields [("bogus", Json.str "z")] {} =
      decodeAmazonQEntryFields [] ({} : AmazonQHistoryEntry) :=
  ⟨(c5_line_parser_classification.1 "hello" 3 7 (by rfl)).1,
   c5_line_parser_classification.2.2.2.2.2.2.2.1 [("bogus", Json.str "z")] {}
     ("bogus", Json.str "z") (by simp) (by decide),
   c5_line_parser_classification.2.2.2.2.2.2.2.2.1 "bogus" (by decide)
     (Json.str "z") [] {}⟩
